import Mathlib

/-!
# Verification of the Doppelganger retrieval / generation core

Shallow embedding of the repository `cloneme` (FastAPI service), covering:

* `app/services/generation.py` — candidate scoring, hard filter, sanitizer,
  the `GenerationService.generate` pipeline;
* `app/services/semantic_index.py` — dense-snapshot loading and persona-scoped
  dense search;
* `app/services/retrieval.py` — lexical candidate search and score fusion.

Modelling conventions:

* Python `float` arithmetic is modelled over `ℚ` (the code's score formulas are
  exact decimal arithmetic; IEEE rounding is not modelled).
* External services (the Gemini LLM / embedding client, SQLite) are modelled as
  oracles: a call either raises (`Option.none` / `Except.error`) or returns a
  value.  `_extract_json` (a verbatim use of Python's `json` module plus a
  regex scan) is modelled as part of the call outcome: the oracle supplies the
  parsed JSON value or `none` for its `ValueError`.
* Python's stable `list.sort` is modelled by a stable insertion sort
  (`insSortBy`); any two stable sorts over a total boolean preorder agree
  pointwise, so this is extensionally the code's sort.
* Python regular expressions that appear in the code are alternations of
  literals, simple character classes, `X.*Y` gaps and doubled-block
  backreferences; each is translated to an equivalent executable predicate at
  its definition site.
-/

namespace CloneMe

/-- `_clamp(n, lo, hi) = max(lo, min(hi, n))` (generation.py). -/
def clampQ (n lo hi : ℚ) : ℚ := max lo (min hi n)

/-! ## Characters and substrings -/

/-- The CJK block `一-鿿` used throughout the source's regexes. -/
def isCJK (c : Char) : Bool := 0x4e00 ≤ c.toNat && c.toNat ≤ 0x9fff

/-- `A-Za-z`. -/
def isLatin (c : Char) : Bool :=
  (0x41 ≤ c.toNat && c.toNat ≤ 0x5a) || (0x61 ≤ c.toNat && c.toNat ≤ 0x7a)

/-- `0-9`. -/
def isDigitCh (c : Char) : Bool := 0x30 ≤ c.toNat && c.toNat ≤ 0x39

/-- ASCII lowercasing (`str.lower()`): the strings the code lowercases are
searched only for ASCII/CJK literals, for which ASCII case folding is exact.
Implemented on the character list so that proofs can evaluate it. -/
def lowerCh (c : Char) : Char :=
  if 0x41 ≤ c.toNat && c.toNat ≤ 0x5a then Char.ofNat (c.toNat + 32) else c

def lowerPy (s : String) : String := String.mk (s.data.map lowerCh)

/-- Python's ASCII whitespace (`\s` = `[ \t\n\r\f\v]`). -/
def isSpacePy (c : Char) : Bool :=
  c = ' ' || c = '\t' || c = '\n' || c = '\r' || c = '\x0b' || c = '\x0c'

/-- `str.strip()` (whitespace at both ends). -/
def trimPy (s : String) : String :=
  String.mk (((s.data.dropWhile isSpacePy).reverse.dropWhile isSpacePy).reverse)

/-- `sep.join(parts)` / `" OR ".join(...)` (evaluable join with separator). -/
def interStr (sep : String) : List String → String
  | [] => ""
  | x :: xs => xs.foldl (fun acc y => acc ++ sep ++ y) x

def digitsToNat (cs : List Char) : ℕ := cs.foldl (fun a c => a * 10 + (c.toNat - 0x30)) 0

/-- `int(s)` for strings: optional sign, decimal digits, surrounding
whitespace (`none` models `ValueError`). -/
def parseIntPy (s : String) : Option ℤ :=
  let t := (trimPy s).data
  let t := match t with
    | '+' :: r => r
    | r => r
  match t with
  | [] => none
  | '-' :: r => if r ≠ [] && r.all isDigitCh then some (-(digitsToNat r : ℤ)) else none
  | r => if r.all isDigitCh then some ((digitsToNat r : ℤ)) else none

/-- Python `"".join(parts)`: concatenation at the character level. -/
def joinStr (parts : List String) : String := String.mk (parts.map String.data).flatten

/-- `pat in hay` (Python substring test), on character lists. -/
def containsSub (hay pat : List Char) : Bool :=
  (List.range (hay.length + 1)).any (fun i => pat.isPrefixOf (hay.drop i))

/-- `pat in hay` on strings. -/
def strContains (hay pat : String) : Bool := containsSub hay.data pat.data

/-- `re.search` of an alternation of escaped literals: some literal occurs. -/
def containsAnyOf (hay : String) (pats : List String) : Bool :=
  pats.any (fun p => strContains hay p)

/-! ## Stable sort (model of Python's `list.sort`)

Python's `list.sort(key=..)` is a stable sort.  Over a total boolean preorder
any two stable sorts agree pointwise, so a stable insertion sort is an
extensionally faithful model. -/

/-- Insert `x` before the first element `y` with `le x y`; later elements that
compare equal to `x` stay behind it, earlier ones stay in front (stability). -/
def insertLe (le : α → α → Bool) (x : α) : List α → List α
  | [] => [x]
  | y :: ys => if le x y then x :: y :: ys else y :: insertLe le x ys

/-- Stable sort by the boolean relation `le` (ascending). -/
def insSortBy (le : α → α → Bool) : List α → List α
  | [] => []
  | x :: xs => insertLe le x (insSortBy le xs)

/-- First-seen-order deduplication (Python `seen:set` / dict-key patterns). -/
def dedupFirst [DecidableEq α] (l : List α) : List α :=
  l.foldl (fun acc x => if x ∈ acc then acc else acc ++ [x]) []

/-! ## `_keyword_tokens` (generation.py)

`KEYWORD_RE = [一-鿿]{2,8}|[A-Za-z]{3,24}|\d+` scanned with
`findall`: at each position the alternatives are tried in order (CJK run of
2..8, Latin run of 3..24, digit run), each greedy; on success the match is
consumed, otherwise the scan advances one character. -/

def STOPWORDS : List String :=
  ["这个", "那个", "今天", "就是", "然后", "可以", "我们", "你们", "我的", "你的", "一下"]

/-- Length matched by `KEYWORD_RE` at the current position (`none` = no match). -/
def kwMatchLen (cs : List Char) : Option Nat :=
  let cjkLen := (cs.takeWhile isCJK).length
  if 2 ≤ cjkLen then some (min cjkLen 8)
  else
    let latLen := (cs.takeWhile isLatin).length
    if 3 ≤ latLen then some (min latLen 24)
    else
      let digLen := (cs.takeWhile isDigitCh).length
      if 1 ≤ digLen then some digLen else none

/-- `KEYWORD_RE.findall`, fuel-bounded by the input length. -/
def kwFindallAux : Nat → List Char → List String
  | 0, _ => []
  | _ + 1, [] => []
  | fuel + 1, c :: rest =>
    match kwMatchLen (c :: rest) with
    | some n => String.mk ((c :: rest).take n) :: kwFindallAux fuel ((c :: rest).drop n)
    | none => kwFindallAux fuel rest

def kwFindall (cs : List Char) : List String := kwFindallAux cs.length cs

/-- `_keyword_tokens(text)`. -/
def keywordTokens (text : String) : List String :=
  let base := (kwFindall text.data).map lowerPy
  let merged := (lowerPy text).data.filter (fun c => isCJK c || isLatin c || isDigitCh c)
  let chars := merged.filter isCJK
  let grams :=
    ((List.range (chars.length + 1 - 2)).map (fun i => String.mk ((chars.drop i).take 2))) ++
    ((List.range (chars.length + 1 - 3)).map (fun i => String.mk ((chars.drop i).take 3)))
  (base ++ grams).filter (fun t => t ≠ "" && !(STOPWORDS.contains t))

/-- Python `set(...)` of a token list: distinct elements (order irrelevant for
the cardinalities and membership tests the scorers use). -/
def tokSet (text : String) : List String := (keywordTokens text).dedup

/-! ## Regex predicates of generation.py

Each named predicate translates one module-level compiled regex. -/

/-- `QUESTION_HINTS` tuple; `any(x in user_message for x in QUESTION_HINTS)`. -/
def questionHints : List String := ["吗", "么", "怎么", "为什么", "咋", "是否", "要不要", "?"]

/-- `META_ARTIFACT_RE` (IGNORECASE alternation of literals). -/
def metaArtifact (t : String) : Bool :=
  containsAnyOf (lowerPy t) ["json", "schema", "markdown", "作为ai", "我作为", "提示词", "system prompt"]

/-- `ACTIVITY_QUERY_RE`. -/
def activityQuery (t : String) : Bool :=
  containsAnyOf t ["在干嘛", "干嘛呢", "做什么", "忙什么", "忙啥", "在忙啥", "在忙什么"]

/-- `re.search` of `a.*b`: an occurrence of `a`, then an occurrence of `b`
at or after its end, with no newline in the gap (`.` excludes `\n`). -/
def seqMatch (a b t : String) : Bool :=
  let cs := t.data
  (List.range (cs.length + 1)).any (fun i =>
    a.data.isPrefixOf (cs.drop i) &&
    (List.range (cs.length + 1)).any (fun j =>
      decide (i + a.length ≤ j) && b.data.isPrefixOf (cs.drop j) &&
      ((cs.drop (i + a.length)).take (j - (i + a.length))).all (fun c => c ≠ '\n')))

/-- `STATUS_REPLY_RE = (我在|在.*呢|刚.*完|准备.*呢|在.*中|还在.*)`. -/
def statusReply (t : String) : Bool :=
  strContains t "我在" || seqMatch "在" "呢" t || seqMatch "刚" "完" t ||
  seqMatch "准备" "呢" t || seqMatch "在" "中" t || strContains t "还在"

/-- `STATUS_UPDATE_RE`. -/
def statusUpdateRe (t : String) : Bool :=
  containsAnyOf t ["我在", "我刚", "我现在", "我还在", "我正", "刚刚", "准备", "正在"]

/-- `FOLLOWUP_RE`. -/
def followupRe (t : String) : Bool :=
  containsAnyOf t ["吗", "呢", "咋样", "怎么样", "要不要", "想不想", "要不", "是不是", "辣不辣", "好吃吗", "然后呢", "你呢"]

/-- `(火鸡面|你在干嘛|干嘛呢|好吃吗)(?:\1)+`: some alternative repeated at least
twice in a row, i.e. its square occurs as a substring. -/
def fixedLoop (t : String) : Bool :=
  ["火鸡面", "你在干嘛", "干嘛呢", "好吃吗"].any (fun w => strContains t (w ++ w))

/-- `(哈哈|h{2,}|呵呵|嘿嘿)+` with IGNORECASE: since `X+` succeeds iff `X`
does, this is containment of one of the literals (with `h{2,}` ≡ `hh`). -/
def laughEcho (t : String) : Bool :=
  containsAnyOf (lowerPy t) ["哈哈", "hh", "呵呵", "嘿嘿"]

/-- `(哈哈|笑死|hhh)` with IGNORECASE (style scorer). -/
def laughStyle (t : String) : Bool :=
  containsAnyOf (lowerPy t) ["哈哈", "笑死", "hhh"]

/-- `(.{2,8})\1`: a doubled block of 2..8 non-newline characters. -/
def hasDoubledBlock (t : String) : Bool :=
  let cs := t.data
  (List.range cs.length).any (fun i =>
    (List.range' 2 7).any (fun n =>
      decide (i + 2 * n ≤ cs.length) &&
      ((cs.drop i).take n).all (fun c => c ≠ '\n') &&
      ((cs.drop i).take n == (cs.drop (i + n)).take n)))

/-- `[!?！？~～]` search (punctuation-style parity in the segment aligner). -/
def punctEmph (t : String) : Bool :=
  t.data.any (fun c => c ∈ ['!', '?', '！', '？', '~', '～'])

/-- `[一-鿿]` search (hard filter's contentful-character check). -/
def hasCJKChar (t : String) : Bool := t.data.any isCJK

/-- `(可以|不行|能|要|是|不是|会|不会|先|再)` (flow scorer). -/
def yesNoHint (t : String) : Bool :=
  containsAnyOf t ["可以", "不行", "能", "要", "是", "不是", "会", "不会", "先", "再"]

/-- `[?？]|(是|要|可以|行|能|不行|怎么|因为|所以)` (offtopic scorer). -/
def questionResponseHint (t : String) : Bool :=
  containsAnyOf t ["?", "？", "是", "要", "可以", "行", "能", "不行", "怎么", "因为", "所以"]

/-- `(不过|更想聊|先不聊|换个话题|另外聊|题外话|扯远了)` (offtopic scorer). -/
def topicShift (t : String) : Bool :=
  containsAnyOf t ["不过", "更想聊", "先不聊", "换个话题", "另外聊", "题外话", "扯远了"]

/-! ## Data model for the candidate pipeline

Structures mirror the dict shapes the pipeline actually builds.
`Option` fields model dict keys read through `.get(key, default)` where the
payload may genuinely lack the key; fields that `_build_context_frame` always
populates are plain. -/

/-- One row of `online_block` / one line of a retrieved segment. -/
structure CtxLine where
  role : String
  content : String
deriving DecidableEq

/-- One retrieved segment as consumed by the scorers (only `lines` is read). -/
structure CtxSegment where
  lines : List CtxLine
deriving DecidableEq

/-- `frame["bubble_hint"]` — always built with all three keys. -/
structure BubbleHint where
  bmin : ℚ
  btarget : ℚ
  bmax : ℚ

/-- The short-term context frame built by `_build_context_frame`. -/
structure Frame where
  focusTerms : List String
  questionLike : Bool
  statusUpdate : Bool
  bubbleHint : BubbleHint

/-- The context block consumed by `_score_candidate`. -/
structure Context where
  onlineBlock : List CtxLine
  segments : List CtxSegment
  frame : Frame

/-- The style profile (`style.get("avg_len", 6.0)`). -/
structure StyleProfile where
  avgLen : Option ℚ

/-- `preference["weights"]` read through `.get(key, default)`. -/
structure Weights where
  wSemantic : Option ℚ
  wStyle : Option ℚ
  wRelation : Option ℚ
  wRecency : Option ℚ
  wOnline : Option ℚ

/-- The preference profile fields the scorers read. -/
structure Preference where
  weights : Weights
  laughRatioTarget : Option ℚ

/-- The flattened persona payload fields the scorers read
(`flatten_persona` output: `relationship.*`, `speech_traits.*`).
`forbiddenNicknames = none` models an absent `forbidden_nicknames` key
(falling back to `settings.forbidden_nicknames`). -/
structure Persona where
  forbiddenNicknames : Option (List String)
  strictNickname : Option String
  speechAvgLen : Option ℚ
  topPhrases : List String

/-- The `settings` fields (config.py) the generation service reads. -/
structure Cfg where
  enablePersonaGuard : Bool
  enableOfftopicPenalty : Bool
  enableRepairPass : Bool
  offtopicPenaltyWeight : ℚ
  personaGuardPenaltyWeight : ℚ
  personaGuardRepairThreshold : ℚ
  repairThresholdLow : ℚ
  repairThresholdMid : ℚ
  repairThresholdHigh : ℚ
  rerankTopK : ℤ
  generationCandidates : ℤ
  strictNickname : String
  forbiddenNicknames : List String
  contextFrameAnchorChars : ℕ

/-! ## Scoring functions (`GenerationService._*_score`, `_*_penalty`) -/

/-- `_relevance_score` (keyword-overlap fallback relevance). -/
def relevanceScore (userMessage : String) (bubbles : List String) : ℚ :=
  let tokens := tokSet userMessage
  if tokens = [] then 0.5
  else
    let text := lowerPy (joinStr bubbles)
    let hit := (tokens.filter (fun t => strContains text t)).length
    clampQ ((hit : ℚ) / (max 1 tokens.length : ℕ)) 0 1

/-- `_style_score`.  `_score_candidate` always passes the built frame, whose
`bubble_hint` always carries `min`/`target`/`max`, so the dict-default path
(`preference.multi_bubble.default_count`) is not reachable here. -/
def styleScore (bubbles : List String) (style : StyleProfile) (pref : Preference)
    (frame : Frame) : ℚ :=
  if bubbles = [] then 0
  else
    let lengths := bubbles.map String.length
    let avgLen : ℚ := ((lengths.sum : ℚ)) / (lengths.length : ℕ)
    let targetLen := style.avgLen.getD 6
    let lenScore := 1 - min (|avgLen - targetLen| / max 1 targetLen) 1
    let shortRatio : ℚ := ((lengths.filter (fun x => x ≤ 10)).length : ℚ) / (max 1 lengths.length : ℕ)
    let bubbleTarget := frame.bubbleHint.btarget
    let bubbleMin := frame.bubbleHint.bmin
    let bubbleMax := frame.bubbleHint.bmax
    let n : ℚ := (bubbles.length : ℕ)
    let bubbleScore :=
      if n < bubbleMin then max 0 (1 - (bubbleMin - n) / max 1 bubbleMin)
      else if n > bubbleMax then max 0 (1 - (n - bubbleMax) / max 1 bubbleMax)
      else 1 - min (|n - bubbleTarget| / max 2 bubbleTarget) 1
    let text := joinStr bubbles
    let laughTarget := pref.laughRatioTarget.getD 0.1
    let laughHere : ℚ := if laughStyle text then 1 else 0
    let laughScore := 1 - |laughHere - laughTarget|
    clampQ (0.42 * lenScore + 0.26 * shortRatio + 0.22 * bubbleScore + 0.10 * laughScore) 0 1

/-- `_context_score`. -/
def contextScore (bubbles : List String) (context : Context) : ℚ :=
  if context.onlineBlock = [] then 0.55
  else
    let text := joinStr bubbles
    let hit := ((context.onlineBlock.take 8).filter (fun row =>
      let ref := trimPy row.content
      ref ≠ "" && (let key := String.mk (ref.data.take 6); key ≠ "" && strContains text key))).length
    clampQ (0.30 + (hit : ℚ) * 0.12) 0 1

/-- `_conversation_flow_score`. -/
def conversationFlowScore (userMessage : String) (bubbles : List String) (frame : Frame) : ℚ :=
  if bubbles = [] then 0
  else
    let text := joinStr bubbles
    let questionLike := frame.questionLike
    let statusUpdate := frame.statusUpdate
    let hasFollowup := followupRe text
    let hasStatus := statusReply text
    let flow : ℚ := 0.35
    let flow := flow +
      (if questionLike then
        (if hasStatus || yesNoHint text then (0.28 : ℚ) else 0.06) + (if hasFollowup then (0.16 : ℚ) else 0)
      else if statusUpdate then
        (if hasStatus then (0.26 : ℚ) else 0.08) + (if hasFollowup then (0.22 : ℚ) else 0.04)
      else
        (if hasStatus then (0.14 : ℚ) else 0.05) + (if hasFollowup then (0.14 : ℚ) else 0.05))
    let flow :=
      if bubbles.length ≥ 3 then flow + 0.07
      else if bubbles.length = 1 && text.length ≤ 5 then flow - 0.14
      else flow
    let flow := if fixedLoop text then flow - 0.28 else flow
    clampQ flow 0 1

/-- The `overlap ≥ 0.78 ∧ new_ratio ≤ 0.22` echo condition (factored out so
relational claims can hypothesize its equality across candidates). -/
def echoBaseCond (userMessage joined : String) : Bool :=
  let userTok := tokSet userMessage
  let candTok := tokSet joined
  let overlap : ℚ := ((candTok.filter (fun t => userTok.contains t)).length : ℚ) / (max 1 candTok.length : ℕ)
  let newRatio : ℚ := ((candTok.filter (fun t => !(userTok.contains t))).length : ℚ) / (max 1 candTok.length : ℕ)
  decide (0.78 ≤ overlap) && decide (newRatio ≤ 0.22)

/-- The short-echo condition (`len(joined) ≤ 12 ∧ |cand_tokens| ≤ 3 ∧ overlap ≥ 0.6`). -/
def echoShortCond (userMessage joined : String) : Bool :=
  let userTok := tokSet userMessage
  let candTok := tokSet joined
  let overlap : ℚ := ((candTok.filter (fun t => userTok.contains t)).length : ℚ) / (max 1 candTok.length : ℕ)
  decide (joined.length ≤ 12) && decide (candTok.length ≤ 3) && decide (0.6 ≤ overlap)

/-- `_echo_penalty`. -/
def echoPenalty (userMessage : String) (bubbles : List String) : ℚ :=
  let userTok := tokSet userMessage
  if userTok = [] then 0
  else
    let joined := joinStr bubbles
    let candTok := tokSet joined
    if candTok = [] then 0
    else
      let p0 : ℚ := if echoBaseCond userMessage joined then 0.18 else 0
      let p1 := p0 + (if echoShortCond userMessage joined then (0.10 : ℚ) else 0)
      let p2 := p1 + (if fixedLoop joined then (0.22 : ℚ) else 0)
      if laughEcho joined then clampQ p2 0 0.35
      else clampQ (p2 + (if hasDoubledBlock joined then (0.08 : ℚ) else 0)) 0 0.35

/-- `_segment_alignment_score`. -/
def segmentAlignmentScore (bubbles : List String) (context : Context) : ℚ :=
  match context.segments with
  | [] => 0.5
  | top :: _ =>
    let refs := (top.lines.filter (fun x => x.role = "assistant" && trimPy x.content ≠ "")).map
      (fun x => trimPy x.content)
    if refs = [] then 0.5
    else
      let refText := joinStr refs
      let candText := joinStr bubbles
      let refTok := tokSet refText
      let candTok := tokSet candText
      let overlap : ℚ :=
        if candTok = [] then 0
        else ((candTok.filter (fun t => refTok.contains t)).length : ℚ) / (max 1 candTok.length : ℕ)
      let refAvg : ℚ := ((refs.map String.length).sum : ℚ) / (refs.length : ℕ)
      let candAvg : ℚ := ((bubbles.map String.length).sum : ℚ) / (bubbles.length : ℕ)
      let lenScore := 1 - min (|candAvg - refAvg| / max 1 refAvg) 1
      let pScore : ℚ := if punctEmph refText = punctEmph candText then 1 else 0
      clampQ (0.55 * overlap + 0.35 * lenScore + 0.10 * pScore) 0 1

/-- `_copy_penalty`. -/
def copyPenalty (bubbles : List String) (context : Context) : ℚ :=
  if context.segments = [] then 0
  else
    let refSet := ((context.segments.take 2).map (fun seg =>
      (seg.lines.filter (fun x => x.role = "assistant" && trimPy x.content ≠ "")).map
        (fun x => trimPy x.content))).flatten
    let cnt := (bubbles.filter (fun b =>
      let t := trimPy b
      t ≠ "" && refSet.contains t && decide (10 ≤ t.length))).length
    min 0.22 ((cnt : ℚ) * 0.08)

/-- `_persona_consistency_score`. -/
def personaConsistencyScore (cfg : Cfg) (bubbles : List String) (persona : Persona) : ℚ :=
  if !cfg.enablePersonaGuard then 0.7
  else if bubbles = [] then 0
  else
    let text := joinStr bubbles
    let forbidden := persona.forbiddenNicknames.getD cfg.forbiddenNicknames
    if forbidden ≠ [] && containsAnyOf text forbidden then 0
    else
      let targetLen := persona.speechAvgLen.getD 8
      let avgLen : ℚ := ((bubbles.map String.length).sum : ℚ) / (max 1 bubbles.length : ℕ)
      let lenAlign := 1 - min (|avgLen - targetLen| / max 1 targetLen) 1
      let score : ℚ := 0.65 + 0.2 * lenAlign
      let phrases := (persona.topPhrases.take 30).filter (fun x => trimPy x ≠ "")
      let score :=
        if phrases ≠ [] then
          let hit := (phrases.filter (fun p => strContains text p)).length
          score + 0.15 * clampQ ((hit : ℚ) / 4) 0 1
        else score + 0.08
      clampQ score 0 1

/-- `_offtopic_score`. -/
def offtopicScore (cfg : Cfg) (userMessage : String) (bubbles : List String)
    (frame : Frame) (relevanceHint : Option ℚ) : ℚ :=
  if !cfg.enableOfftopicPenalty then 0
  else if bubbles = [] then 1
  else
    let text := joinStr bubbles
    let textTokens := tokSet text
    let anchors0 := frame.focusTerms
    let anchors1 := if anchors0 = [] then keywordTokens userMessage else anchors0
    let anchors := anchors1.take 12
    if anchors = [] then 0.25
    else
      let hit := (anchors.filter (fun t => textTokens.contains t || strContains text t)).length
      let coverage : ℚ := (hit : ℚ) / (max 1 anchors.length : ℕ)
      let drift := (1 - coverage) * 0.75
      let drift := if frame.questionLike && !questionResponseHint text then drift + 0.08 else drift
      let drift := if activityQuery userMessage && statusReply text then drift - 0.28 else drift
      let drift := match relevanceHint with
        | some r => drift - 0.30 * clampQ r 0 1
        | none => drift
      let drift := if topicShift text then drift + 0.18 else drift
      let extras := textTokens.filter (fun t => !(anchors.contains t) && decide (2 ≤ t.length))
      let drift :=
        if coverage < 0.45 ∧ 3 ≤ extras.length then drift + min 0.14 (0.02 * (extras.length : ℚ))
        else drift
      let drift := if metaArtifact text then drift + 0.22 else drift
      clampQ drift 0 1

/-- `_weighted_total`. -/
def weightedTotal (cfg : Cfg) (rel styleS flowS segS ctxS personaS copyPen echoPen offtopic : ℚ)
    (pref : Preference) : ℚ :=
  let wSem := pref.weights.wSemantic.getD 0.45
  let wStyle := pref.weights.wStyle.getD 0.22
  let wRelation := pref.weights.wRelation.getD 0.12
  let wRecency := pref.weights.wRecency.getD 0.08
  let wOnline := pref.weights.wOnline.getD 0.13
  let base := wSem * rel + wStyle * styleS + wRelation * personaS + wRecency * segS +
    wOnline * ctxS + 0.24 * flowS
  let pen := copyPen + echoPen + cfg.offtopicPenaltyWeight * offtopic +
    0.12 * max 0 (0.46 - flowS)
  let pen := if cfg.enablePersonaGuard then
    pen + cfg.personaGuardPenaltyWeight * max 0 (0.55 - personaS) else pen
  clampQ (base - pen) 0 1

/-- The per-candidate score bag (`_score_candidate`'s returned dict). -/
structure Metrics where
  relevance : ℚ
  styleS : ℚ
  flowS : ℚ
  segS : ℚ
  ctxS : ℚ
  personaS : ℚ
  offtopic : ℚ
  copyPen : ℚ
  echoPen : ℚ
  total : ℚ
deriving DecidableEq

/-- `_score_candidate`. -/
def scoreCandidate (cfg : Cfg) (userMessage : String) (bubbles : List String)
    (context : Context) (style : StyleProfile) (pref : Preference) (persona : Persona)
    (relHint : Option ℚ) : Metrics :=
  let rel := match relHint with
    | some r => r
    | none => relevanceScore userMessage bubbles
  let frame := context.frame
  let styleS := styleScore bubbles style pref frame
  let flowS := conversationFlowScore userMessage bubbles frame
  let segS := segmentAlignmentScore bubbles context
  let ctxS := contextScore bubbles context
  let personaS := personaConsistencyScore cfg bubbles persona
  let offtopic := offtopicScore cfg userMessage bubbles frame (some rel)
  let copyPen := copyPenalty bubbles context
  let echoPen := echoPenalty userMessage bubbles
  let total := weightedTotal cfg rel styleS flowS segS ctxS personaS copyPen echoPen offtopic pref
  ⟨rel, styleS, flowS, segS, ctxS, personaS, offtopic, copyPen, echoPen, total⟩

/-! ## `_sanitize_bubble` and friends (generation.py) -/

/-- `str.replace(old, new)` with a single-character `old` and `new`. -/
def replaceChar (s : String) (oldC newC : Char) : String :=
  String.mk (s.data.map (fun c => if c = oldC then newC else c))

/-- Right-strip the characters of `set` (Python `str.rstrip(chars)`). -/
def rstripChars (cs : List Char) (set : List Char) : List Char :=
  (cs.reverse.dropWhile (fun c => c ∈ set)).reverse

/-- The strip set of the 44-char truncation: `"。！？!?，,"`. -/
def punctStrip44 : List Char := "。！？!?，,".data

/-- `FORBIDDEN_WORD_RE.sub("", s)`: repeatedly remove, scanning left to right,
the first alternative (in pattern order) that matches at the current position;
non-overlapping, as `re.sub` does for an alternation of literals. -/
def removeWordsAux : Nat → List (List Char) → List Char → List Char
  | 0, _, _ => []
  | _ + 1, _, [] => []
  | fuel + 1, pats, c :: rest =>
    match pats.find? (fun p => p ≠ [] && p.isPrefixOf (c :: rest)) with
    | some p => removeWordsAux fuel pats ((c :: rest).drop p.length)
    | none => c :: removeWordsAux fuel pats rest

def removeWords (words : List String) (s : String) : String :=
  String.mk (removeWordsAux s.data.length (words.map String.data) s.data)

/-- `re.sub(r"\s+", " ", s)`: collapse whitespace runs to a single space. -/
def collapseWsAux : Nat → List Char → List Char
  | 0, _ => []
  | _ + 1, [] => []
  | fuel + 1, c :: rest =>
    if isSpacePy c then
      ' ' :: collapseWsAux fuel (rest.dropWhile isSpacePy)
    else c :: collapseWsAux fuel rest

/-- The punctuation class of `([。！？!?~～，,]){2,}`. -/
def punctRunSet : List Char := "。！？!?~～，,".data

/-- `re.sub(r"([。！？!?~～，,]){2,}", r"\1", s)`: each maximal run of at least
two of these characters is replaced by its last character (the final capture). -/
def collapsePunctAux : Nat → List Char → List Char
  | 0, _ => []
  | _ + 1, [] => []
  | fuel + 1, c :: rest =>
    if c ∈ punctRunSet then
      let run := (c :: rest).takeWhile (fun x => x ∈ punctRunSet)
      let tail := (c :: rest).drop run.length
      (if 2 ≤ run.length then [run.getLastD c] else [c]) ++ collapsePunctAux fuel tail
    else c :: collapsePunctAux fuel rest

/-- The normalisation part of `_sanitize_bubble` (everything before the
44-character truncation). -/
def sanitizePre (cfg : Cfg) (s : String) : String :=
  let r := trimPy s
  if r = "" then ""
  else
    let r := replaceChar r ' ' ' '
    let r := if cfg.forbiddenNicknames ≠ [] then removeWords cfg.forbiddenNicknames r else r
    let r := trimPy (String.mk (collapseWsAux r.data.length r.data))
    String.mk (collapsePunctAux r.data.length r.data)

/-- `_sanitize_bubble`. -/
def sanitizeBubbleStr (cfg : Cfg) (s : String) : String :=
  let r := sanitizePre cfg s
  if 44 < r.length then String.mk (rstripChars (r.data.take 44) punctStrip44) ++ "…"
  else r

/-- `_hard_filter`. -/
def hardFilter (cfg : Cfg) (bubbles : List String) : Bool × String :=
  if bubbles = [] then (false, "empty")
  else if bubbles.any (fun b => trimPy b = "") then (false, "blank")
  else if bubbles.any (fun b => trimPy b ∈ ["选中", "不错", "提交", "发送", "标记"]) then
    (false, "ui_artifact")
  else if bubbles.any metaArtifact then (false, "meta_artifact")
  else if cfg.forbiddenNicknames ≠ [] &&
      bubbles.any (fun b => containsAnyOf b cfg.forbiddenNicknames) then
    (false, "forbidden_nickname")
  else if bubbles.any (fun b => 50 < b.length) then (false, "too_long")
  else if bubbles.all (fun b => !hasCJKChar b) then (false, "non_chinese")
  else (true, "ok")

/-- The (possibly truncated) user-message snippet of `_fallback_lines`. -/
def fallbackSnippet (cfg : Cfg) (userMessage : String) : String :=
  let snippet := replaceChar (trimPy userMessage) '\n' ' '
  if cfg.contextFrameAnchorChars < snippet.length then
    String.mk ((snippet.data.take cfg.contextFrameAnchorChars).reverse.dropWhile
      isSpacePy).reverse ++ "…"
  else snippet

/-- `flat.relationship.strict_nickname or settings.strict_nickname`. -/
def fallbackNickname (cfg : Cfg) (persona : Persona) : String :=
  let s := persona.strictNickname.getD ""
  if s = "" then cfg.strictNickname else s

/-- `_fallback_lines`. -/
def fallbackLines (cfg : Cfg) (userMessage : String) (persona : Persona) : List String :=
  let first := sanitizeBubbleStr cfg (fallbackNickname cfg persona ++ "，我在，先接住你这个点。")
  let second := sanitizeBubbleStr cfg
    ("你刚刚说的是「" ++ fallbackSnippet cfg userMessage ++ "」，我按这个继续。")
  let lines := ([first, second].filter (fun x => x ≠ "")).take 2
  if lines = [] then ["我在", "你继续说，我接得住"] else lines

/-! ## JSON values and call outcomes

The pipeline parses LLM text through `_extract_json` (Python's `json` module
plus a regex scan for an embedded JSON block).  The JSON grammar itself is
external machinery; the oracle for each LLM call supplies the raw text
together with the parse outcome (`none` models `_extract_json` raising
`ValueError`).  What the pipeline then does with the parsed value is modelled
faithfully below. -/

inductive JVal where
  | null : JVal
  | jbool : Bool → JVal
  | num : ℚ → JVal
  | str : String → JVal
  | arr : List JVal → JVal
  | obj : List (String × JVal) → JVal

/-- Python dict `.get(key)`: parsed JSON objects have distinct keys, so the
first binding is the binding. -/
def lookupJ (k : String) (fields : List (String × JVal)) : Option JVal :=
  (fields.find? (fun p => p.1 = k)).map (fun p => p.2)

/-- Python truthiness of a JSON-decoded value. -/
def jvalFalsy : JVal → Bool
  | .null => true
  | .jbool b => !b
  | .num q => q = 0
  | .str s => s = ""
  | .arr l => l.isEmpty
  | .obj f => f.isEmpty

/-- Python `str()` of a JSON-decoded value.  Scalar cases are exact; the
`repr` text of nested lists/dicts never influences control flow (it is only
ever fed to `_sanitize_bubble`), so it is abstracted to a placeholder. -/
def jvalToString : JVal → String
  | .null => "None"
  | .jbool b => if b then "True" else "False"
  | .num q => toString q
  | .str s => s
  | .arr _ => "<list-repr>"
  | .obj _ => "<dict-repr>"

/-- Python `int()` truncates toward zero. -/
def ratTrunc (q : ℚ) : ℤ := if 0 ≤ q then ⌊q⌋ else ⌈q⌉

/-- `_safe_int(value, fallback)`. -/
def safeInt (v : Option JVal) (fallback : ℤ) : ℤ :=
  match v with
  | some (.num q) => ratTrunc q
  | some (.str s) => (parseIntPy s).getD fallback
  | some (.jbool b) => if b then 1 else 0
  | _ => fallback

/-! ## `_coerce_candidates_from_text` -/

/-- `str.replace(old, "")` for a literal `old`: left-to-right non-overlapping
removal. -/
def removeAllSub (s pat : String) : String :=
  if pat = "" then s
  else String.mk (removeWordsAux s.data.length [pat.data] s.data)

/-- Python `str.splitlines()` restricted to `\n`, `\r`, `\r\n` (the exotic
Unicode line boundaries do not occur in model output). -/
def splitLinesAux : Nat → List Char → List Char → List String
  | 0, acc, _ => [String.mk acc.reverse]
  | _ + 1, acc, [] => if acc = [] then [] else [String.mk acc.reverse]
  | fuel + 1, acc, c :: rest =>
    if c = '\n' then String.mk acc.reverse :: splitLinesAux fuel [] rest
    else if c = '\r' then
      match rest with
      | '\n' :: rest2 => String.mk acc.reverse :: splitLinesAux fuel [] rest2
      | _ => String.mk acc.reverse :: splitLinesAux fuel [] rest
    else splitLinesAux fuel (c :: acc) rest

def splitLinesPy (s : String) : List String := splitLinesAux s.data.length [] s.data

/-- The leading-junk class of `re.sub(r"^[\-\*\d\.\)\(\s]+", "", line)`. -/
def leadJunk (c : Char) : Bool :=
  c = '-' || c = '*' || isDigitCh c || c = '.' || c = ')' || c = '(' || isSpacePy c

/-- The `len > 44` truncation shared by `_coerce_candidates_from_text`. -/
def truncate44 (s : String) : String :=
  if 44 < s.length then String.mk (rstripChars (s.data.take 44) punctStrip44) ++ "…"
  else s

/-- `_coerce_candidates_from_text`. -/
def coerceCandidatesFromText (text : String) : List JVal :=
  let plain := trimPy (removeAllSub (removeAllSub text "```json") "```")
  let lines := (splitLinesPy plain).map trimPy |>.filter (fun x => x ≠ "")
  let bubbles := (lines.filterMap (fun line =>
    let l2 := trimPy (String.mk (line.data.dropWhile leadJunk))
    if l2 = "" then none else some (truncate44 l2))).take 3
  let bubbles :=
    if bubbles = [] then
      let fb := trimPy (String.mk (plain.data.take 24))
      [if fb = "" then "我在" else fb]
    else bubbles
  [JVal.obj [("bubbles", JVal.arr (bubbles.map JVal.str)), ("strategy", JVal.str "text_coerce")]]

/-! ## The `generate` pipeline -/

/-- A successful `GeminiClient.generate` call: raw text, its `_extract_json`
outcome, and the model that answered. -/
structure CallOk where
  raw : String
  extracted : Option JVal
  modelUsed : String

/-- Oracle outcomes for the external calls `generate` makes.  `none` models
the call raising (for `GeminiClient.generate`: every model in the fallback
list failed).  `embedRel` carries the raw cosine values of
`_semantic_relevance_scores`' success path. -/
structure GenOutcomes where
  planner : Option CallOk
  generator : Option CallOk
  embedRel : Option (List ℚ)
  critic : Option CallOk
  repair : Option CallOk
  rng : ℕ → ℤ

/-- Iterating `item.get("bubbles", [])` (or the repair payload's `bubbles`):
lists iterate elements, strings iterate characters, dicts iterate keys, other
values raise `TypeError`. -/
def iterBubblesVal : Option JVal → Except String (List JVal)
  | none => .ok []
  | some (.arr l) => .ok l
  | some (.str s) => .ok (s.data.map (fun c => JVal.str (String.mk [c])))
  | some (.obj f) => .ok (f.map (fun p => JVal.str p.1))
  | some _ => .error "TypeError: value is not iterable"

/-- `str(item.get("strategy") or "")`. -/
def strategyOf (fields : List (String × JVal)) : String :=
  match lookupJ "strategy" fields with
  | some v => if jvalFalsy v then "" else jvalToString v
  | none => ""

/-- One iteration of the prelim loop (lines 951-957 of generation.py):
sanitize, drop empties, hard-filter.  `item.get` on a non-dict raises. -/
def prelimStep (cfg : Cfg) (item : JVal) : Except String (Option (List String × String)) :=
  match item with
  | .obj fields => do
    let vals ← iterBubblesVal (lookupJ "bubbles" fields)
    let bubbles := (vals.map (fun x => sanitizeBubbleStr cfg (jvalToString x))).filter
      (fun x => x ≠ "")
    let fr := hardFilter cfg bubbles
    if fr.1 then return some (bubbles, strategyOf fields) else return none
  | _ => .error "AttributeError: item has no attribute get"

/-- The prelim loop over all raw candidates. -/
def prelimOf (cfg : Cfg) (rawCandidates : List JVal) :
    Except String (List (List String × String)) :=
  match rawCandidates with
  | [] => .ok []
  | item :: rest => do
    let head ← prelimStep cfg item
    let tail ← prelimOf cfg rest
    match head with
    | some p => return p :: tail
    | none => return tail

/-- `_semantic_relevance_scores`: on embed success each candidate similarity
is clamped into `[0,1]`; on failure (`except`) the keyword-overlap fallback
is used per candidate. -/
def semanticRelevanceScores (userMessage : String) (texts : List String)
    (outcome : Option (List ℚ)) : List ℚ :=
  if texts = [] then []
  else match outcome with
    | some raws => raws.map (fun s => clampQ s 0 1)
    | none => texts.map (fun x => relevanceScore userMessage [x])

/-- A scored candidate (`bubbles`, `strategy`, score bag). -/
structure Candidate where
  bubbles : List String
  strategy : String
  metrics : Metrics
deriving DecidableEq

/-- The critic step (RERANK): any failure of the call, of `_extract_json`, of
`.get` on a non-dict, or an out-of-range / low-relevance pick falls back to
index 0. -/
def criticPickIdx (pool : List Candidate) (outcome : Option CallOk) : ℕ :=
  match outcome with
  | none => 0
  | some c =>
    match c.extracted with
    | some (.obj f) =>
      let idx := safeInt (lookupJ "winner_index" f) 0
      if h : 0 ≤ idx ∧ idx < (pool.length : ℤ) then
        let top := pool.headD ⟨[], "", ⟨0,0,0,0,0,0,0,0,0,0⟩⟩
        let choice := pool.getD idx.toNat ⟨[], "", ⟨0,0,0,0,0,0,0,0,0,0⟩⟩
        if top.metrics.relevance - 0.04 ≤ choice.metrics.relevance then idx.toNat else 0
      else 0
    | _ => 0

/-- `_repair_candidate`: `none` models every failure path (call raised, parse
failed, payload not iterable, hard filter rejected). -/
def repairCandidate (cfg : Cfg) (outcome : Option CallOk) : Option (List String × String) :=
  if !cfg.enableRepairPass then none
  else match outcome with
    | none => none
    | some c =>
      match c.extracted with
      | some (.obj f) =>
        let reason := match lookupJ "reason" f with
          | some v => if jvalFalsy v then "repair" else jvalToString v
          | none => "repair"
        match iterBubblesVal (lookupJ "bubbles" f) with
        | .error _ => none
        | .ok vals =>
          let repaired := (vals.map (fun x => sanitizeBubbleStr cfg (jvalToString x))).filter
            (fun x => x ≠ "")
          if (hardFilter cfg repaired).1 then some (repaired, reason) else none
      | some _ => none
      | none => none

/-- `_compute_delays`: cumulative typing delays; `rng i` models the i-th
`randint(45, 88)` draw. -/
def computeDelays (rng : ℕ → ℤ) (bubbles : List String) : List ℤ :=
  ((bubbles.enum.map (fun p => 500 + min p.2.length 26 * rng p.1)).scanl (· + ·) 0).drop 1

/-- The observable output of `GenerationService.generate` (the `debug` dict
fields the claims mention are flattened in). -/
structure GenerationResult where
  bubbles : List String
  candidates : List Candidate
  selectedIndex : ℕ
  plannerModel : String
  generatorModel : String
  criticModel : Option String
  finalPath : String
  fallbackReason : String
  repairApplied : Bool
  delays : List ℤ

/-- The planner-output handling: `_extract_json` + dict/list coercion, with
the heuristic fallback plan on any parse failure; only `candidate_count`
escapes the prompts, clamped to `[8, 20]`. -/
def plannedCandidateCount (cfg : Cfg) (plannerOut : CallOk) : ℤ :=
  let fromPlan :=
    match plannerOut.extracted with
    | some (.obj f) => safeInt (lookupJ "candidate_count" f) cfg.generationCandidates
    | some (.arr (JVal.obj f :: _)) => safeInt (lookupJ "candidate_count" f) cfg.generationCandidates
    | _ => max 10 cfg.generationCandidates
  min 20 (max 8 fromPlan)

/-- The generator-output handling (lines 936-948): extract the candidate list,
falling back to `_coerce_candidates_from_text` when `_extract_json` raises. -/
def rawCandidatesOf (generatorOut : CallOk) : List JVal :=
  match generatorOut.extracted with
  | some (.obj f) =>
    match lookupJ "candidates" f with
    | some (.arr l) => l
    | _ => []
  | some (.arr l) => l
  | some _ => []
  | none => coerceCandidatesFromText generatorOut.raw

/-- Descending stable sort by `total_score` (`scored.sort(key=..., reverse=True)`). -/
def sortByTotal (l : List Candidate) : List Candidate :=
  insSortBy (fun a b => decide (b.metrics.total ≤ a.metrics.total)) l

/-- SCORE (lines 959-986): score the surviving prelim candidates against the
stage's relevance hints, dropping those below the `0.05` relevance floor. -/
def scoredCandidatesOf (cfg : Cfg) (style : StyleProfile) (pref : Preference)
    (persona : Persona) (context : Context) (userMessage : String)
    (embedRel : Option (List ℚ)) (prelim : List (List String × String)) : List Candidate :=
  let semanticScores := semanticRelevanceScores userMessage
    (prelim.map (fun p => interStr " " p.1)) embedRel
  prelim.enum.filterMap (fun p =>
    let relHint := semanticScores.get? p.1
    let m := scoreCandidate cfg userMessage p.2.1 context style pref persona relHint
    if m.relevance < 0.05 then none else some ⟨p.2.1, p.2.2, m⟩)

/-- Lines 992-1006: an empty scored pool is replaced by the deterministic
fallback candidate, scored with the fixed hint `0.58`, path `fallback`. -/
def scoredOrFallback (cfg : Cfg) (style : StyleProfile) (pref : Preference)
    (persona : Persona) (context : Context) (userMessage : String)
    (scored0 : List Candidate) : List Candidate × String × String :=
  if scored0 = [] then
    let fbLines := fallbackLines cfg userMessage persona
    let m := scoreCandidate cfg userMessage fbLines context style pref persona (some 0.58)
    ([Candidate.mk fbLines "fallback_persona" m], "fallback", "empty_candidate_pool")
  else (scored0, "direct", "")

/-- Lines 1008, 1029: sort by total descending, take
`max(1, min(rerank_top_k, len(scored)))`. -/
def rerankPoolOf (cfg : Cfg) (scored : List Candidate) : List Candidate :=
  (sortByTotal scored).take (max 1 (min cfg.rerankTopK (scored.length : ℤ))).toNat

/-- REPAIR (lines 1058-1102): returns the (possibly repaired) selection, the
final path so far, and whether repair was applied. -/
def repairPhase (cfg : Cfg) (style : StyleProfile) (pref : Preference) (persona : Persona)
    (context : Context) (userMessage : String) (repairOc : Option CallOk)
    (selected0 : Candidate) (finalPath0 : String) : Candidate × String × Bool :=
  if cfg.enableRepairPass && finalPath0 ≠ "fallback" then
    let offNow := selected0.metrics.offtopic
    let perNow := selected0.metrics.personaS
    let flowNow := selected0.metrics.flowS
    let shouldRepair :=
      (cfg.repairThresholdLow < offNow ∧ offNow ≤ cfg.repairThresholdHigh) ∨
      (cfg.enablePersonaGuard = true ∧ perNow < cfg.personaGuardRepairThreshold) ∨
      flowNow < 0.46
    if shouldRepair then
      match repairCandidate cfg repairOc with
      | some rr =>
        let rm := scoreCandidate cfg userMessage rr.1 context style pref persona none
        let better := rm.offtopic < selected0.metrics.offtopic - 0.08 ∨
          selected0.metrics.total + 0.03 < rm.total
        let acceptable := rm.offtopic ≤ cfg.repairThresholdHigh ∧
          min 0.3 (cfg.personaGuardRepairThreshold - 0.2) ≤ rm.personaS
        if better ∨ acceptable then
          (Candidate.mk rr.1 (selected0.strategy ++ "|repair") rm, "repair", true)
        else (selected0, finalPath0, false)
      | none => (selected0, finalPath0, false)
    else (selected0, finalPath0, false)
  else (selected0, finalPath0, false)

/-- FALLBACK safety net (lines 1104-1135). -/
def fallbackPhase (cfg : Cfg) (style : StyleProfile) (pref : Preference) (persona : Persona)
    (context : Context) (userMessage : String) (selected1 : Candidate)
    (finalPath1 fallbackReason0 : String) : Candidate × String × String :=
  if finalPath1 ≠ "fallback" then
    let offNow := selected1.metrics.offtopic
    let perNow := selected1.metrics.personaS
    let flowNow := selected1.metrics.flowS
    let tooOfftopic := cfg.enableOfftopicPenalty = true ∧
      cfg.repairThresholdHigh < offNow ∧
      selected1.metrics.relevance < 0.52 ∧ flowNow < 0.35
    let personaBroken := cfg.enablePersonaGuard = true ∧
      perNow < max 0.2 (cfg.personaGuardRepairThreshold - 0.25)
    let flowBroken := flowNow < 0.15 ∧ selected1.metrics.relevance < 0.45
    if tooOfftopic ∨ personaBroken ∨ flowBroken then
      let fbLines := fallbackLines cfg userMessage persona
      let fm := scoreCandidate cfg userMessage fbLines context style pref persona
        (some (max 0.45 (1 - offNow)))
      (Candidate.mk fbLines "fallback_persona" fm, "fallback",
        if tooOfftopic then "offtopic_high"
        else if personaBroken then "persona_low" else "flow_low")
    else (selected1, finalPath1, fallbackReason0)
  else (selected1, finalPath1, fallbackReason0)

/-- The default `Candidate` (never observed: the selected index is always in
range of the non-empty pool). -/
def defaultCandidate : Candidate := ⟨[], "", ⟨0, 0, 0, 0, 0, 0, 0, 0, 0, 0⟩⟩

/-- `GenerationService.generate`.  Profiles and the context block are inputs
(the context builder's own external calls all catch their failures inside
`retrieval.py`); `Except.error` models an exception propagating to the
caller.  The parsed plan only shapes the prompts sent back out through the
oracle, so of the PLAN stage only the clamped `candidate_count` is kept. -/
def generate (cfg : Cfg) (style : StyleProfile) (pref : Preference) (persona : Persona)
    (context : Context) (userMessage : String) (oc : GenOutcomes) :
    Except String GenerationResult :=
  match oc.planner with
  | none => .error "all Gemini model attempts failed"
  | some plannerOut =>
    let _candidateCount := plannedCandidateCount cfg plannerOut
    match oc.generator with
    | none => .error "all Gemini model attempts failed"
    | some generatorOut =>
      match prelimOf cfg (rawCandidatesOf generatorOut) with
      | .error e => .error e
      | .ok prelim =>
        let scored0 := scoredCandidatesOf cfg style pref persona context userMessage
          oc.embedRel prelim
        let fb0 := scoredOrFallback cfg style pref persona context userMessage scored0
        let pool := rerankPoolOf cfg fb0.1
        let selectedIndex := if 1 < pool.length then criticPickIdx pool oc.critic else 0
        let criticModel := if 1 < pool.length then oc.critic.map (fun c => c.modelUsed) else none
        let selected0 := pool.getD selectedIndex defaultCandidate
        let rep := repairPhase cfg style pref persona context userMessage oc.repair
          selected0 fb0.2.1
        let fb := fallbackPhase cfg style pref persona context userMessage rep.1
          rep.2.1 fb0.2.2
        .ok {
          bubbles := fb.1.bubbles
          candidates := pool
          selectedIndex := selectedIndex
          plannerModel := plannerOut.modelUsed
          generatorModel := generatorOut.modelUsed
          criticModel := criticModel
          finalPath := fb.2.1
          fallbackReason := fb.2.2
          repairApplied := rep.2.2
          delays := computeDelays oc.rng fb.1.bubbles }

/-! ## Semantic index service (`app/services/semantic_index.py`)

The dense snapshot is two memory-mapped arrays plus a JSON metadata sidecar.
The file system and the `baseline_segments.persona_key` column are modelled as
inputs; the in-process state mirrors the service's six instance fields. -/

/-- The `settings` fields the semantic index service reads. -/
structure SemCfg where
  useDense : Bool
  dim : ℕ
  textSource : String
  dxaKey : String

/-- The metadata sidecar: absent, unparseable (`except: pass`), or parsed with
its recorded `text_source` (`str(meta.get("text_source", "") or "")`). -/
inductive MetaFile where
  | absent : MetaFile
  | unreadable : MetaFile
  | parsed : String → MetaFile

/-- The on-disk snapshot pair as `np.load` would deliver it.  `vecDim` is the
column count (`shape[1]`) of the stored matrix. -/
structure DenseFiles where
  present : Bool
  ids : List ℤ
  vecs : List (List ℚ)
  vecDim : ℕ
  sig : ℕ × ℕ
  meta : MetaFile

/-- In-process snapshot state (`_ids`, `_vectors`, `_id_to_pos`,
`_segment_persona_map`, `_persona_to_positions`, `_loaded_signature`). -/
structure IdxState where
  idsArr : Option (List ℤ)
  vecsArr : Option (List (List ℚ))
  idToPos : List (ℤ × ℕ)
  segmentPersonaMap : List (ℤ × String)
  personaToPositions : List (String × List ℕ)
  loadedSignature : Option (ℕ × ℕ)

/-- The state after the mismatch branch clears every field (and the initial
state of a fresh service). -/
def clearedIdxState : IdxState := ⟨none, none, [], [], [], none⟩

/-- `{int(seg_id): idx for idx, seg_id in enumerate(ids)}` as an association
list; exported ids are distinct (ordered by primary key), so first binding
equals the dict binding. -/
def idToPosEntries (ids : List ℤ) : List (ℤ × ℕ) :=
  ids.enum.map (fun p => (p.2, p.1))

/-- `_segment_persona_map.get(sid, settings.dxa_persona_key)`:
`db sid = none` models a segment row absent from the store. -/
def personaOfD (db : ℤ → Option String) (dxa : String) (sid : ℤ) : String :=
  (db sid).getD dxa

/-- The persona partition built at load time: for each persona key, the sorted
row positions of its segments. -/
def buildPartition (ids : List ℤ) (db : ℤ → Option String) (dxa : String) :
    List (String × List ℕ) :=
  let entries := idToPosEntries ids
  let keys := dedupFirst (entries.map (fun e => personaOfD db dxa e.1))
  keys.map (fun k =>
    (k, insSortBy (fun a b => decide (a ≤ b))
      ((entries.filter (fun e => personaOfD db dxa e.1 = k)).map (fun e => e.2))))

/-- `_persona_to_positions.get(key)`. -/
def lookupPart (pt : List (String × List ℕ)) (k : String) : Option (List ℕ) :=
  (pt.find? (fun p => p.1 = k)).map (fun p => p.2)

/-- `ensure_dense_loaded`.  `Except.error` models the `RuntimeError` raised on
a dimension mismatch (the state the exception leaves behind is not observed by
any caller that survives it). -/
def ensureDenseLoaded (cfg : SemCfg) (db : ℤ → Option String) (fs : DenseFiles)
    (st : IdxState) (force : Bool) : Except String (Bool × IdxState) :=
  if !cfg.useDense then .ok (false, st)
  else if !fs.present then .ok (false, st)
  else if !force && st.loadedSignature = some fs.sig && st.idsArr.isSome && st.vecsArr.isSome then
    .ok (true, st)
  else if fs.vecDim ≠ cfg.dim then .error "dense index dim mismatch"
  else
    let metaMismatch : Bool := match fs.meta with
      | .parsed src => src != cfg.textSource
      | _ => false
    if metaMismatch then .ok (false, clearedIdxState)
    else
      .ok (true,
        { idsArr := some fs.ids
          vecsArr := some fs.vecs
          idToPos := idToPosEntries fs.ids
          segmentPersonaMap := fs.ids.filterMap (fun sid => (db sid).map (fun p => (sid, p)))
          personaToPositions := buildPartition fs.ids db cfg.dxaKey
          loadedSignature := some fs.sig })

/-- Dot product (`vectors @ qvec` row, `np.dot`). -/
def dotQ (a b : List ℚ) : ℚ := ((a.zip b).map (fun p => p.1 * p.2)).sum

/-- `search(query, top_k=..., persona_key=...)`.  The query embedding is an
oracle (`embedO`); `np.argpartition` + descending `argsort` select the `k`
largest scores in descending order, modelled by a descending stable sort
(the numeric library leaves tie order unspecified). -/
def searchDense (cfg : SemCfg) (db : ℤ → Option String) (fs : DenseFiles) (st : IdxState)
    (query : String) (topK : ℤ) (personaKey : String) (embedO : String → List ℚ) :
    Except String (List (ℤ × ℚ) × IdxState) :=
  if trimPy query = "" || topK ≤ 0 then .ok ([], st)
  else
    match ensureDenseLoaded cfg db fs st false with
    | .error e => .error e
    | .ok (false, st2) => .ok ([], st2)
    | .ok (true, st2) =>
      match st2.vecsArr, st2.idsArr with
      | some vecs, some ids =>
        let qvec := embedO (trimPy query)
        let score : ℕ → ℚ := fun pos => dotQ (vecs.getD pos []) qvec
        if personaKey ≠ "" then
          let key := if trimPy personaKey = "" then cfg.dxaKey else trimPy personaKey
          match lookupPart st2.personaToPositions key with
          | none => .ok ([], st2)
          | some positions =>
            if positions = [] then .ok ([], st2)
            else
              let k := min topK (positions.length : ℤ)
              if k ≤ 0 then .ok ([], st2)
              else
                let chosen := (insSortBy (fun a b => decide (score b ≤ score a)) positions).take k.toNat
                .ok (chosen.map (fun pos => (ids.getD pos 0, score pos)), st2)
        else
          let k := min topK (vecs.length : ℤ)
          if k ≤ 0 then .ok ([], st2)
          else
            let chosen := (insSortBy (fun a b => decide (score b ≤ score a))
              (List.range vecs.length)).take k.toNat
            .ok (chosen.map (fun pos => (ids.getD pos 0, score pos)), st2)
      | _, _ => .ok ([], st2)

/-- States whose cached partition (if any) is the one `ensure_dense_loaded`
builds — every state the service can actually be in. -/
def IdxState.PartitionWF (st : IdxState) (cfg : SemCfg) (db : ℤ → Option String) : Prop :=
  ∀ ids, st.idsArr = some ids → st.personaToPositions = buildPartition ids db cfg.dxaKey

/-! ## Retrieval service (`app/services/retrieval.py`) -/

/-- `_cjk_ngrams(text)`: first-seen-deduplicated 2- and 3-grams of the CJK
characters. -/
def cjkNgrams (text : String) : List String :=
  let chars := text.data.filter isCJK
  let grams :=
    ((List.range (chars.length + 1 - 2)).map (fun i => String.mk ((chars.drop i).take 2))) ++
    ((List.range (chars.length + 1 - 3)).map (fun i => String.mk ((chars.drop i).take 3)))
  dedupFirst (grams.filter (fun g => g ≠ ""))

/-- `WORD_RE = [一-鿿A-Za-z0-9]{1,24}` `findall`: maximal runs of the class,
greedily chunked at 24 characters. -/
def isWordCh (c : Char) : Bool := isCJK c || isLatin c || isDigitCh c

def wordFindallAux : Nat → List Char → List String
  | 0, _ => []
  | _ + 1, [] => []
  | fuel + 1, c :: rest =>
    if isWordCh c then
      let run := ((c :: rest).takeWhile isWordCh).length
      let n := min run 24
      String.mk ((c :: rest).take n) :: wordFindallAux fuel ((c :: rest).drop n)
    else wordFindallAux fuel rest

def wordFindall (s : String) : List String := wordFindallAux s.data.length s.data

/-- `_to_fts_query(text)`. -/
def toFtsQuery (text : String) : String :=
  let tokens := wordFindall (lowerPy text)
  let uniq := (dedupFirst tokens).take 12
  if uniq = [] then "" else interStr " OR " uniq

/-- `_lexical_rank_to_score(rank)`. -/
def lexicalRankToScore (rank : ℚ) : ℚ :=
  if rank ≤ 0 then 1 else 1 / (1 + rank)

/-- A row of a lexical candidate query (`anchor_timestamp_unix` may be NULL). -/
structure LexRow where
  rid : ℤ
  anchorText : String
  anchorTs : Option ℤ
  rank : ℚ
deriving DecidableEq

/-- A deduplicated lexical hit dict. -/
structure LexHit where
  segmentId : ℤ
  anchorText : String
  anchorTs : Option ℤ
  lexicalRank : ℚ
deriving DecidableEq

/-- The three SQL queries of `_query_segment_hits_lexical` as database
oracles; the bm25 ranks of `ftsRows` come from the store, while the other two
queries `SELECT` constant ranks (enforced below). -/
structure LexDb where
  ftsRows : String → String → List LexRow
  ngramRows : List String → String → List LexRow
  recentRows : String → List LexRow

def rowToHit (row : LexRow) : LexHit := ⟨row.rid, row.anchorText, row.anchorTs, row.rank⟩

/-- One step of the dedup loop: keep the first-seen entry per id, overwrite in
place when a strictly lower rank appears. -/
def dedupStep (acc : List LexHit) (row : LexRow) : List LexHit :=
  if acc.any (fun cur => cur.segmentId = row.rid) then
    acc.map (fun cur =>
      if cur.segmentId = row.rid && decide (row.rank < cur.lexicalRank) then rowToHit row else cur)
  else acc ++ [rowToHit row]

/-- The dedup of `_query_segment_hits_lexical` (best = lowest rank per id). -/
def dedupBest (hits : List LexRow) : List LexHit := hits.foldl dedupStep []

/-- `_query_segment_hits_lexical`: the ranked full-text query runs when the
FTS string is non-empty, the n-gram LIKE query runs whenever the query has
CJK 2-grams, and the most-recent query runs only when the first two produced
no rows at all. -/
def queryLexical (db : LexDb) (queryText personaKey : String) : List LexHit :=
  let fts := toFtsQuery queryText
  let hits1 := if fts ≠ "" then db.ftsRows fts personaKey else []
  let grams := (cjkNgrams queryText).take 10
  let hits2 := if grams ≠ [] then
    (db.ngramRows grams personaKey).map (fun r => { r with rank := 10000 }) else []
  let hits12 : List LexRow := hits1 ++ hits2
  let hits := if hits12.isEmpty then
    (db.recentRows personaKey).map (fun r => { r with rank := 20000 }) else hits12
  dedupBest hits

/-- The lexical step as the specification describes it: the n-gram match runs
ONLY if the full-text match yields nothing (claim C8's reading; for
comparison with `queryLexical`). -/
def queryLexicalSpecC8 (db : LexDb) (queryText personaKey : String) : List LexHit :=
  let fts := toFtsQuery queryText
  let hits1 := if fts ≠ "" then db.ftsRows fts personaKey else []
  let grams := (cjkNgrams queryText).take 10
  let hits2 :=
    if hits1 = [] && grams ≠ [] then
      (db.ngramRows grams personaKey).map (fun r => { r with rank := 10000 }) else []
  let hits12 : List LexRow := hits1 ++ hits2
  let hits := if hits12.isEmpty then
    (db.recentRows personaKey).map (fun r => { r with rank := 20000 }) else hits12
  dedupBest hits

/-! ### Score fusion and ranking (`retrieve_similar_segments`, lines 299-322) -/

/-- A merged candidate (after lexical/semantic merge and backfill). -/
structure MergedCand where
  segmentId : ℤ
  anchorText : String
  anchorTs : Option ℤ
  lexicalRank : ℚ
  semanticScore : ℚ
deriving DecidableEq

/-- A fused candidate carrying the computed scores. -/
structure RankedCand where
  segmentId : ℤ
  anchorTs : Option ℤ
  lexicalRank : ℚ
  semanticScore : ℚ
  lexicalScore : ℚ
  recencyScore : ℚ
  retrievalScore : ℚ
deriving DecidableEq

/-- `max(ts_values) if ts_values else 0` (ts coerced by `int(v or 0)`). -/
def listMaxD (l : List ℤ) : ℤ :=
  match l with
  | [] => 0
  | x :: xs => xs.foldl max x

def listMinD (l : List ℤ) : ℤ :=
  match l with
  | [] => 0
  | x :: xs => xs.foldl min x

def tsValuesOf (merged : List MergedCand) : List ℤ := merged.map (fun v => v.anchorTs.getD 0)

/-- The fusion loop (lines 299-319): `lexical = _lexical_rank_to_score(rank)`,
`recency = (ts - min_ts) / span if ts else 0`, `span = max(1, max - min)`,
`total = 0.72*semantic + 0.18*lexical + 0.10*recency`. -/
def fuseRanked (merged : List MergedCand) : List RankedCand :=
  let tsValues := tsValuesOf merged
  let maxTs := listMaxD tsValues
  let minTs := listMinD tsValues
  let span := max 1 (maxTs - minTs)
  merged.map (fun item =>
    let semantic := item.semanticScore
    let lexical := lexicalRankToScore item.lexicalRank
    let ts := item.anchorTs.getD 0
    let recency : ℚ := if ts = 0 then 0 else ((ts - minTs : ℤ) : ℚ) / ((span : ℤ) : ℚ)
    let total := 0.72 * semantic + 0.18 * lexical + 0.10 * recency
    ⟨item.segmentId, item.anchorTs, item.lexicalRank, semantic, lexical, recency, total⟩)

/-- The sort key of line 321 as a lexicographic tuple:
`(-total, -semantic, lexical_rank, -segment_id)`, ascending. -/
def rankKey (a : RankedCand) : Lex (ℚ × Lex (ℚ × Lex (ℚ × ℤ))) :=
  toLex (-a.retrievalScore, toLex (-a.semanticScore, toLex (a.lexicalRank, -a.segmentId)))

def rankKeyLe (a b : RankedCand) : Bool := decide (rankKey a ≤ rankKey b)

/-- `ranked.sort(key=...)` (stable ascending by `rankKey`). -/
def rankedSort (l : List RankedCand) : List RankedCand := insSortBy rankKeyLe l

/-- `chosen = ranked[: max(1, top_k_hits)]` (line 322): the candidates the
segment windows are then built from. -/
def chosenCandidates (merged : List MergedCand) (topKHits : ℤ) : List RankedCand :=
  (rankedSort (fuseRanked merged)).take (max 1 topKHits).toNat

/-- The descending tuple order the specification describes: higher total
first; ties by higher semantic, then lower lexical rank, then higher id. -/
def DescTupleRel (a b : RankedCand) : Prop :=
  b.retrievalScore < a.retrievalScore ∨
  (a.retrievalScore = b.retrievalScore ∧
    (b.semanticScore < a.semanticScore ∨
      (a.semanticScore = b.semanticScore ∧
        (a.lexicalRank < b.lexicalRank ∨
          (a.lexicalRank = b.lexicalRank ∧ b.segmentId ≤ a.segmentId)))))

/-! ## Bubble-length invariant (C10) -/

/-- Every bubble of the list fits in 45 characters. -/
def BubblesLe45 (l : List String) : Prop := ∀ b ∈ l, b.length ≤ 45

/-! ## Concrete fixtures (witnesses and counterexamples) -/

/-- The default configuration (config.py defaults). -/
def cfgT : Cfg := {
  enablePersonaGuard := true, enableOfftopicPenalty := true, enableRepairPass := true,
  offtopicPenaltyWeight := 0.22, personaGuardPenaltyWeight := 0.12,
  personaGuardRepairThreshold := 0.6, repairThresholdLow := 0.32,
  repairThresholdMid := 0.55, repairThresholdHigh := 0.76,
  rerankTopK := 6, generationCandidates := 12, strictNickname := "宝贝",
  forbiddenNicknames := ["亲亲", "宝宝", "老婆", "老公", "宝子", "乖乖"],
  contextFrameAnchorChars := 180 }

def personaT : Persona :=
  { forbiddenNicknames := none, strictNickname := none, speechAvgLen := none, topPhrases := [] }

def styleT : StyleProfile := { avgLen := none }

def prefT : Preference := { weights := ⟨none, none, none, none, none⟩, laughRatioTarget := none }

def frameT : Frame :=
  { focusTerms := [], questionLike := false, statusUpdate := false, bubbleHint := ⟨1, 2, 5⟩ }

def ctxT : Context := { onlineBlock := [], segments := [], frame := frameT }

/-- Oracle bundle in which the planner call raised (all models failed). -/
def ocPlannerFailT : GenOutcomes := {
  planner := none, generator := some ⟨"y", some (JVal.obj []), "m2"⟩,
  embedRel := none, critic := none, repair := none, rng := fun _ => 45 }

/-- Oracle bundle in which planner and generator answered (empty payloads). -/
def ocT : GenOutcomes := {
  planner := some ⟨"x", some (JVal.obj []), "m1"⟩,
  generator := some ⟨"y", some (JVal.obj []), "m2"⟩,
  embedRel := none, critic := none, repair := none, rng := fun _ => 45 }

def semCfgT : SemCfg := { useDense := true, dim := 2, textSource := "segment_text", dxaKey := "dxa" }

def dbT : ℤ → Option String :=
  fun sid => if sid = 1 then some "alice" else if sid = 2 then some "bob" else none

def fsT : DenseFiles := {
  present := true, ids := [1, 2], vecs := [[1, 0], [0, 1]],
  vecDim := 2, sig := (3, 4), meta := MetaFile.parsed "segment_text" }

/-- The snapshot of `fsT` with a metadata `text_source` the configuration does
not request. -/
def fsMismatchT : DenseFiles := { fsT with meta := MetaFile.parsed "anchor_text" }

def embedT : String → List ℚ := fun _ => [1, 0]

def lexDbT : LexDb := {
  ftsRows := fun _ _ => [⟨1, "a", some 10, -2⟩],
  ngramRows := fun _ _ => [⟨2, "b", some 20, 0⟩],
  recentRows := fun _ => [⟨3, "c", none, 0⟩] }

def mergedT : List MergedCand := [⟨1, "", some 5, -0.5, 0.5⟩]

def mergedT2 : List MergedCand :=
  [⟨1, "", some 100, 1, 0.9⟩, ⟨2, "", some 200, 2, 0.9⟩, ⟨3, "", none, 3, 0.2⟩]

/-! ## C1 -/

/-- `Except` success as a Boolean (observable success of a pipeline call). -/
def isOkE : Except String α → Bool
  | .ok _ => true
  | .error _ => false

/-- The in-process state `ensure_dense_loaded` builds from the fixture
snapshot. -/
def loadedStT : IdxState := {
  idsArr := some fsT.ids
  vecsArr := some fsT.vecs
  idToPos := idToPosEntries fsT.ids
  segmentPersonaMap := fsT.ids.filterMap (fun sid => (dbT sid).map (fun p => (sid, p)))
  personaToPositions := buildPartition fsT.ids dbT semCfgT.dxaKey
  loadedSignature := some fsT.sig }

/-! ## C8 -/

/-- The concatenated FTS and n-gram row lists of `_query_segment_hits_lexical`
(the hits before the recent-segments fallback). -/
def lexHits12 (db : LexDb) (queryText personaKey : String) : List LexRow :=
  let fts := toFtsQuery queryText
  let hits1 := if fts ≠ "" then db.ftsRows fts personaKey else []
  let grams := (cjkNgrams queryText).take 10
  let hits2 := if grams ≠ [] then
    (db.ngramRows grams personaKey).map (fun r => { r with rank := 10000 }) else []
  hits1 ++ hits2

theorem clampQ_le (n lo hi : ℚ) (h : lo ≤ hi) : clampQ n lo hi ≤ hi := by
  unfold clampQ
  rcases le_total hi n with h1 | h1
  · rw [min_eq_left h1]
    exact max_le h (le_refl hi)
  · rw [min_eq_right h1]
    exact max_le h h1

theorem le_clampQ (n lo hi : ℚ) : lo ≤ clampQ n lo hi := le_max_left _ _

theorem clampQ_mono (a b lo hi : ℚ) (h : a ≤ b) : clampQ a lo hi ≤ clampQ b lo hi := by
  unfold clampQ
  exact max_le_max (le_refl _) (min_le_min (le_refl _) h)

theorem clampQ_nonneg (n hi : ℚ) : 0 ≤ clampQ n 0 hi := le_clampQ n 0 hi

theorem joinStr_data (parts : List String) :
    (joinStr parts).data = (parts.map String.data).flatten := rfl

theorem containsSub_of_isPrefixOf_drop (hay pat : List Char) (i : Nat)
    (h : pat.isPrefixOf (hay.drop i) = true) : containsSub hay pat = true := by
  unfold containsSub
  rw [List.any_eq_true]
  rcases le_or_lt i hay.length with hle | hlt
  · exact ⟨i, List.mem_range.mpr (Nat.lt_succ_of_le hle), h⟩
  · refine ⟨hay.length, List.mem_range.mpr (Nat.lt_succ_self _), ?_⟩
    rw [List.drop_length]
    rw [List.drop_eq_nil_of_le (le_of_lt hlt)] at h
    exact h

theorem containsSub_substring_iff (hay pat : List Char) :
    containsSub hay pat = true ↔ pat <:+: hay := by
  constructor
  · intro h
    unfold containsSub at h
    rw [List.any_eq_true] at h
    obtain ⟨i, _, hpre⟩ := h
    have h2 : pat <+: hay.drop i := List.isPrefixOf_iff_prefix.mp hpre
    obtain ⟨t, ht⟩ := h2
    exact ⟨hay.take i, t, by rw [List.append_assoc, ht, List.take_append_drop]⟩
  · intro h
    obtain ⟨s, t, hst⟩ := h
    apply containsSub_of_isPrefixOf_drop hay pat s.length
    rw [List.isPrefixOf_iff_prefix]
    rw [← hst, List.append_assoc, List.drop_left]
    exact ⟨t, rfl⟩

/-- A substring of one of the joined parts is a substring of the join. -/
theorem strContains_joinStr_of_mem (parts : List String) (b pat : String)
    (hb : b ∈ parts) (h : strContains b pat = true) :
    strContains (joinStr parts) pat = true := by
  unfold strContains at h ⊢
  rw [containsSub_substring_iff] at h ⊢
  rw [joinStr_data]
  refine h.trans ?_
  obtain ⟨s, t, hst⟩ := List.append_of_mem hb
  refine ⟨(s.map String.data).flatten, (t.map String.data).flatten, ?_⟩
  rw [hst]
  simp

theorem insertLe_perm (le : α → α → Bool) (x : α) (l : List α) :
    List.Perm (insertLe le x l) (x :: l) := by
  induction l with
  | nil => rfl
  | cons y ys ih =>
    unfold insertLe
    by_cases h : le x y = true
    · rw [if_pos h]
    · rw [if_neg h]
      exact (ih.cons y).trans (List.Perm.swap x y ys)

theorem insSortBy_perm (le : α → α → Bool) (l : List α) : List.Perm (insSortBy le l) l := by
  induction l with
  | nil => rfl
  | cons x xs ih => exact (insertLe_perm le x (insSortBy le xs)).trans (ih.cons x)

theorem mem_insSortBy (le : α → α → Bool) (l : List α) (a : α) :
    a ∈ insSortBy le l ↔ a ∈ l := (insSortBy_perm le l).mem_iff

theorem insertLe_sorted (le : α → α → Bool)
    (htot : ∀ a b, le a b = true ∨ le b a = true)
    (htrans : ∀ a b c, le a b = true → le b c = true → le a c = true)
    (x : α) (l : List α)
    (hl : l.Pairwise (fun a b => le a b = true)) :
    (insertLe le x l).Pairwise (fun a b => le a b = true) := by
  induction l with
  | nil => simp [insertLe]
  | cons y ys ih =>
    unfold insertLe
    rcases List.pairwise_cons.mp hl with ⟨hy, hys⟩
    by_cases h : le x y = true
    · rw [if_pos h]
      refine List.pairwise_cons.mpr ⟨?_, hl⟩
      intro b hb
      rcases List.mem_cons.mp hb with hb | hb
      · rw [hb]
        exact h
      · exact htrans x y b h (hy b hb)
    · rw [if_neg h]
      refine List.pairwise_cons.mpr ⟨?_, ih hys⟩
      intro b hb
      rw [(insertLe_perm le x ys).mem_iff] at hb
      rcases List.mem_cons.mp hb with hb | hb
      · rw [hb]
        exact (htot x y).resolve_left h
      · exact hy b hb

theorem insSortBy_sorted (le : α → α → Bool)
    (htot : ∀ a b, le a b = true ∨ le b a = true)
    (htrans : ∀ a b c, le a b = true → le b c = true → le a c = true)
    (l : List α) :
    (insSortBy le l).Pairwise (fun a b => le a b = true) := by
  induction l with
  | nil => simp [insSortBy]
  | cons x xs ih => exact insertLe_sorted le htot htrans x (insSortBy le xs) ih

/-! ## Score-bound lemmas -/

theorem clampQ01_bounds (n : ℚ) : 0 ≤ clampQ n 0 1 ∧ clampQ n 0 1 ≤ 1 :=
  ⟨le_clampQ n 0 1, clampQ_le n 0 1 (by norm_num)⟩

theorem ite_mem01 {c : Prop} [Decidable c] {a b : ℚ} (ha : 0 ≤ a ∧ a ≤ 1)
    (hb : 0 ≤ b ∧ b ≤ 1) : 0 ≤ (if c then a else b) ∧ (if c then a else b) ≤ 1 := by
  split
  · exact ha
  · exact hb

theorem relevanceScore_bounds (u : String) (b : List String) :
    0 ≤ relevanceScore u b ∧ relevanceScore u b ≤ 1 := by
  unfold relevanceScore
  apply ite_mem01 (by norm_num)
  exact clampQ01_bounds _

theorem personaConsistencyScore_bounds (cfg : Cfg) (b : List String) (p : Persona) :
    0 ≤ personaConsistencyScore cfg b p ∧ personaConsistencyScore cfg b p ≤ 1 := by
  unfold personaConsistencyScore
  apply ite_mem01 (by norm_num)
  apply ite_mem01 (by norm_num)
  apply ite_mem01 (by norm_num)
  exact clampQ01_bounds _

theorem offtopicScore_bounds (cfg : Cfg) (u : String) (b : List String) (f : Frame)
    (h : Option ℚ) : 0 ≤ offtopicScore cfg u b f h ∧ offtopicScore cfg u b f h ≤ 1 := by
  unfold offtopicScore
  apply ite_mem01 (by norm_num)
  apply ite_mem01 (by norm_num)
  apply ite_mem01 (by norm_num)
  exact clampQ01_bounds _

theorem weightedTotal_bounds (cfg : Cfg) (rel s f sg c p cp e o : ℚ) (pref : Preference) :
    0 ≤ weightedTotal cfg rel s f sg c p cp e o pref ∧
      weightedTotal cfg rel s f sg c p cp e o pref ≤ 1 := by
  unfold weightedTotal
  exact clampQ01_bounds _

theorem semanticRelevanceScores_bounds (u : String) (texts : List String)
    (oc : Option (List ℚ)) (x : ℚ) (hx : x ∈ semanticRelevanceScores u texts oc) :
    0 ≤ x ∧ x ≤ 1 := by
  simp only [semanticRelevanceScores] at hx
  split at hx
  · simp at hx
  · split at hx
    · obtain ⟨r, _, hr⟩ := List.mem_map.mp hx
      rw [← hr]
      exact clampQ01_bounds _
    · obtain ⟨t, _, ht⟩ := List.mem_map.mp hx
      rw [← ht]
      exact relevanceScore_bounds u [t]

/-- Projection equation: the relevance component of `_score_candidate`. -/
theorem scoreCandidate_relevance_eq (cfg : Cfg) (u : String) (b : List String)
    (ctx : Context) (st : StyleProfile) (pr : Preference) (pe : Persona)
    (hint : Option ℚ) :
    (scoreCandidate cfg u b ctx st pr pe hint).relevance =
      match hint with
      | some r => r
      | none => relevanceScore u b := rfl

theorem scoreCandidate_offtopic_eq (cfg : Cfg) (u : String) (b : List String)
    (ctx : Context) (st : StyleProfile) (pr : Preference) (pe : Persona)
    (hint : Option ℚ) :
    (scoreCandidate cfg u b ctx st pr pe hint).offtopic =
      offtopicScore cfg u b ctx.frame
        (some (match hint with
          | some r => r
          | none => relevanceScore u b)) := rfl

theorem scoreCandidate_personaS_eq (cfg : Cfg) (u : String) (b : List String)
    (ctx : Context) (st : StyleProfile) (pr : Preference) (pe : Persona)
    (hint : Option ℚ) :
    (scoreCandidate cfg u b ctx st pr pe hint).personaS =
      personaConsistencyScore cfg b pe := rfl

theorem scoreCandidate_total_eq (cfg : Cfg) (u : String) (b : List String)
    (ctx : Context) (st : StyleProfile) (pr : Preference) (pe : Persona)
    (hint : Option ℚ) :
    (scoreCandidate cfg u b ctx st pr pe hint).total =
      weightedTotal cfg
        (match hint with
          | some r => r
          | none => relevanceScore u b)
        (styleScore b st pr ctx.frame)
        (conversationFlowScore u b ctx.frame)
        (segmentAlignmentScore b ctx)
        (contextScore b ctx)
        (personaConsistencyScore cfg b pe)
        (copyPenalty b ctx)
        (echoPenalty u b)
        (offtopicScore cfg u b ctx.frame
          (some (match hint with
            | some r => r
            | none => relevanceScore u b)))
        pr := rfl

theorem scoreCandidate_stage_bounds (cfg : Cfg) (userMessage : String)
    (bubbles : List String) (context : Context) (style : StyleProfile)
    (pref : Preference) (persona : Persona) (hint : Option ℚ)
    (hhint : ∀ r, hint = some r → 0 ≤ r ∧ r ≤ 1) :
    (0 ≤ (scoreCandidate cfg userMessage bubbles context style pref persona hint).total ∧
      (scoreCandidate cfg userMessage bubbles context style pref persona hint).total ≤ 1) ∧
    (0 ≤ (scoreCandidate cfg userMessage bubbles context style pref persona hint).offtopic ∧
      (scoreCandidate cfg userMessage bubbles context style pref persona hint).offtopic ≤ 1) ∧
    (0 ≤ (scoreCandidate cfg userMessage bubbles context style pref persona hint).personaS ∧
      (scoreCandidate cfg userMessage bubbles context style pref persona hint).personaS ≤ 1) ∧
    (0 ≤ (scoreCandidate cfg userMessage bubbles context style pref persona hint).relevance ∧
      (scoreCandidate cfg userMessage bubbles context style pref persona hint).relevance ≤ 1) := by
  rw [scoreCandidate_total_eq, scoreCandidate_offtopic_eq, scoreCandidate_personaS_eq,
    scoreCandidate_relevance_eq]
  refine ⟨weightedTotal_bounds _ _ _ _ _ _ _ _ _ _ _,
    offtopicScore_bounds _ _ _ _ _, personaConsistencyScore_bounds _ _ _, ?_⟩
  cases hint with
  | none => exact relevanceScore_bounds _ _
  | some r => exact hhint r rfl

/-- C6: For every user message, candidate bubble list, context, and profile
configuration, the scores computed by the SCORE stage (whose relevance hint
is drawn from `_semantic_relevance_scores`) satisfy: `total_score ∈ [0,1]`
and `offtopic_score`, `persona_score`, `relevance_score ∈ [0,1]`. -/
theorem C6_score_bounds (cfg : Cfg) (userMessage : String) (bubbles : List String)
    (context : Context) (style : StyleProfile) (pref : Preference) (persona : Persona)
    (texts : List String) (embedOutcome : Option (List ℚ)) (idx : ℕ) :
    (0 ≤ (scoreCandidate cfg userMessage bubbles context style pref persona
        ((semanticRelevanceScores userMessage texts embedOutcome).get? idx)).total ∧
      (scoreCandidate cfg userMessage bubbles context style pref persona
        ((semanticRelevanceScores userMessage texts embedOutcome).get? idx)).total ≤ 1) ∧
    (0 ≤ (scoreCandidate cfg userMessage bubbles context style pref persona
        ((semanticRelevanceScores userMessage texts embedOutcome).get? idx)).offtopic ∧
      (scoreCandidate cfg userMessage bubbles context style pref persona
        ((semanticRelevanceScores userMessage texts embedOutcome).get? idx)).offtopic ≤ 1) ∧
    (0 ≤ (scoreCandidate cfg userMessage bubbles context style pref persona
        ((semanticRelevanceScores userMessage texts embedOutcome).get? idx)).personaS ∧
      (scoreCandidate cfg userMessage bubbles context style pref persona
        ((semanticRelevanceScores userMessage texts embedOutcome).get? idx)).personaS ≤ 1) ∧
    (0 ≤ (scoreCandidate cfg userMessage bubbles context style pref persona
        ((semanticRelevanceScores userMessage texts embedOutcome).get? idx)).relevance ∧
      (scoreCandidate cfg userMessage bubbles context style pref persona
        ((semanticRelevanceScores userMessage texts embedOutcome).get? idx)).relevance ≤ 1) :=
  scoreCandidate_stage_bounds cfg userMessage bubbles context style pref persona _
    (fun r hr => semanticRelevanceScores_bounds _ _ _ r (List.get?_mem hr))

/-- C7: A candidate one of whose bubbles contains a configured forbidden
nickname (from the persona payload, or the settings default when the payload
has none) scores `persona_score = 0` outright, whatever else it contains.
The persona scorer is the guard-enabled one (`ENABLE_PERSONA_GUARD`, default
true; with the guard off the scorer returns the constant 0.7). -/
theorem C7_forbidden_nickname_zero (cfg : Cfg) (bubbles : List String) (persona : Persona)
    (b w : String) (hguard : cfg.enablePersonaGuard = true) (hb : b ∈ bubbles)
    (hw : w ∈ persona.forbiddenNicknames.getD cfg.forbiddenNicknames)
    (hcont : strContains b w = true) :
    personaConsistencyScore cfg bubbles persona = 0 := by
  unfold personaConsistencyScore
  rw [hguard]
  simp only [Bool.not_true, Bool.false_eq_true, if_false]
  rw [if_neg (List.ne_nil_of_mem hb)]
  rw [if_pos]
  rw [Bool.and_eq_true]
  constructor
  · simp [List.ne_nil_of_mem hw]
  · unfold containsAnyOf
    rw [List.any_eq_true]
    exact ⟨w, hw, strContains_joinStr_of_mem bubbles b w hb hcont⟩

/-- Witness for C7 at a concrete candidate. -/
theorem C7_forbidden_nickname_zero_witness :
    personaConsistencyScore
      { enablePersonaGuard := true, enableOfftopicPenalty := true, enableRepairPass := true,
        offtopicPenaltyWeight := 0.22, personaGuardPenaltyWeight := 0.12,
        personaGuardRepairThreshold := 0.6, repairThresholdLow := 0.32,
        repairThresholdMid := 0.55, repairThresholdHigh := 0.76,
        rerankTopK := 6, generationCandidates := 12, strictNickname := "宝贝",
        forbiddenNicknames := ["亲亲", "宝宝", "老婆", "老公", "宝子", "乖乖"],
        contextFrameAnchorChars := 180 }
      ["好的宝宝", "马上到"] ⟨none, none, none, []⟩ = 0 :=
  C7_forbidden_nickname_zero _ ["好的宝宝", "马上到"] _ "好的宝宝" "宝宝" rfl
    (by decide) (by decide) (by decide)

/-- C9: a candidate whose repetition is laughter tokens gets an `echo_penalty`
no higher than an otherwise equivalent candidate of the same joined length
whose mechanical repetition is non-laughter text (equivalence = the same
token-overlap conditions, the same fixed-loop status, and token sets that are
empty together). -/
theorem C9_laugh_echo_not_higher (userMessage : String) (b1 b2 : List String)
    (hlen : (joinStr b1).length = (joinStr b2).length)
    (hempty : tokSet (joinStr b1) = [] ↔ tokSet (joinStr b2) = [])
    (hbase : echoBaseCond userMessage (joinStr b1) = echoBaseCond userMessage (joinStr b2))
    (hshort : echoShortCond userMessage (joinStr b1) = echoShortCond userMessage (joinStr b2))
    (hloop : fixedLoop (joinStr b1) = fixedLoop (joinStr b2))
    (hlaugh : laughEcho (joinStr b1) = true)
    (hmech : hasDoubledBlock (joinStr b2) = true) :
    echoPenalty userMessage b1 ≤ echoPenalty userMessage b2 := by
  simp only [echoPenalty]
  by_cases hu : tokSet userMessage = []
  · rw [if_pos hu, if_pos hu]
  · rw [if_neg hu, if_neg hu]
    by_cases hc1 : tokSet (joinStr b1) = []
    · rw [if_pos hc1, if_pos (hempty.mp hc1)]
    · rw [if_neg hc1, if_neg (fun h => hc1 (hempty.mpr h))]
      rw [hbase, hshort, hloop, if_pos hlaugh]
      rcases Bool.eq_false_or_eq_true (laughEcho (joinStr b2)) with hl2 | hl2
      · rw [if_pos hl2]
      · rw [if_neg (show ¬laughEcho (joinStr b2) = true by simp [hl2])]
        apply clampQ_mono
        have hx : (0 : ℚ) ≤ if hasDoubledBlock (joinStr b2) = true then 0.08 else 0 := by
          split
          · norm_num
          · norm_num
        linarith

/-- Witness for C9: `["哈哈哈哈"]` (laughter) vs `["呃呃呃呃"]` (mechanical
doubled block) against the same user message. -/
theorem C9_laugh_echo_not_higher_witness :
    echoPenalty "今天吃什么" ["哈哈哈哈"] ≤ echoPenalty "今天吃什么" ["呃呃呃呃"] :=
  C9_laugh_echo_not_higher "今天吃什么" ["哈哈哈哈"] ["呃呃呃呃"]
    (by decide) (by decide) (by with_unfolding_all rfl) (by with_unfolding_all rfl)
    (by decide) (by decide) (by decide)

theorem rstripChars_length_le (cs set : List Char) :
    (rstripChars cs set).length ≤ cs.length := by
  unfold rstripChars
  rw [List.length_reverse]
  calc (cs.reverse.dropWhile (fun c => decide (c ∈ set))).length
      ≤ cs.reverse.length := (List.dropWhile_sublist _).length_le
    _ = cs.length := List.length_reverse cs

theorem sanitizeBubbleStr_length_le (cfg : Cfg) (s : String) :
    (sanitizeBubbleStr cfg s).length ≤ 45 := by
  simp only [sanitizeBubbleStr]
  split
  · rw [String.length_append]
    have h1 : (String.mk (rstripChars ((sanitizePre cfg s).data.take 44) punctStrip44)).length
        ≤ 44 := by
      show (rstripChars ((sanitizePre cfg s).data.take 44) punctStrip44).length ≤ 44
      calc (rstripChars ((sanitizePre cfg s).data.take 44) punctStrip44).length
          ≤ ((sanitizePre cfg s).data.take 44).length := rstripChars_length_le _ _
        _ ≤ 44 := by
          rw [List.length_take]
          exact min_le_left _ _
    have h2 : ("…" : String).length = 1 := rfl
    omega
  · omega

theorem fallbackLines_le45 (cfg : Cfg) (u : String) (p : Persona) :
    BubblesLe45 (fallbackLines cfg u p) := by
  intro b hb
  simp only [fallbackLines] at hb
  split at hb
  · rcases List.mem_cons.mp hb with hb | hb
    · rw [hb]
      decide
    · rcases List.mem_cons.mp hb with hb | hb
      · rw [hb]
        decide
      · cases hb
  · have hb2 := List.mem_of_mem_take hb
    rcases List.mem_filter.mp hb2 with ⟨hmem, _⟩
    rcases List.mem_cons.mp hmem with h | h
    · rw [h]
      exact sanitizeBubbleStr_length_le _ _
    · rcases List.mem_cons.mp h with h | h
      · rw [h]
        exact sanitizeBubbleStr_length_le _ _
      · cases h

theorem prelimStep_le45 (cfg : Cfg) (item : JVal) (p : List String × String)
    (h : prelimStep cfg item = .ok (some p)) : BubblesLe45 p.1 := by
  intro b hb
  unfold prelimStep at h
  cases item with
  | obj fields =>
    simp only [bind, Except.bind] at h
    cases hv : iterBubblesVal (lookupJ "bubbles" fields) with
    | error e => rw [hv] at h; cases h
    | ok vals =>
      rw [hv] at h
      simp only [pure, Except.pure] at h
      split at h
      · injection h with h2
        injection h2 with h3
        rw [← h3] at hb
        rcases List.mem_filter.mp hb with ⟨hmem, _⟩
        rcases List.mem_map.mp hmem with ⟨x, _, hx⟩
        rw [← hx]
        exact sanitizeBubbleStr_length_le _ _
      · injection h with h2
        cases h2
  | null => cases h
  | jbool b2 => cases h
  | num q => cases h
  | str s => cases h
  | arr l => cases h

theorem prelimOf_le45 (cfg : Cfg) (raws : List JVal) (l : List (List String × String))
    (h : prelimOf cfg raws = .ok l) : ∀ p ∈ l, BubblesLe45 p.1 := by
  induction raws generalizing l with
  | nil =>
    unfold prelimOf at h
    injection h with h2
    rw [← h2]
    intro p hp
    cases hp
  | cons item rest ih =>
    unfold prelimOf at h
    simp only [bind, Except.bind] at h
    cases hstep : prelimStep cfg item with
    | error e => rw [hstep] at h; cases h
    | ok head =>
      rw [hstep] at h
      cases htail : prelimOf cfg rest with
      | error e => rw [htail] at h; cases h
      | ok tail =>
        rw [htail] at h
        simp only [pure, Except.pure] at h
        cases head with
        | some q =>
          injection h with h2
          rw [← h2]
          intro p hp
          rcases List.mem_cons.mp hp with hp | hp
          · rw [hp]
            exact prelimStep_le45 cfg item q hstep
          · exact ih tail htail p hp
        | none =>
          injection h with h2
          rw [← h2]
          exact ih tail htail

theorem repairCandidate_le45 (cfg : Cfg) (oc : Option CallOk) (rr : List String × String)
    (h : repairCandidate cfg oc = some rr) : BubblesLe45 rr.1 := by
  unfold repairCandidate at h
  repeat' split at h
  any_goals exact Option.noConfusion h
  all_goals dsimp only at h
  all_goals split at h
  any_goals exact Option.noConfusion h
  all_goals
    rw [Option.some_inj] at h
    intro b hb
    rw [← h] at hb
    rcases List.mem_filter.mp hb with ⟨hmem, _⟩
    rcases List.mem_map.mp hmem with ⟨x, _, hxx⟩
    rw [← hxx]
    exact sanitizeBubbleStr_length_le _ _

theorem scoredCandidatesOf_le45 (cfg : Cfg) (style : StyleProfile) (pref : Preference)
    (persona : Persona) (context : Context) (u : String) (er : Option (List ℚ))
    (prelim : List (List String × String)) (hpre : ∀ p ∈ prelim, BubblesLe45 p.1) :
    ∀ c ∈ scoredCandidatesOf cfg style pref persona context u er prelim,
      BubblesLe45 c.bubbles := by
  intro c hc
  unfold scoredCandidatesOf at hc
  rcases List.mem_filterMap.mp hc with ⟨q, hq, hqc⟩
  dsimp only at hqc
  split at hqc
  · cases hqc
  · injection hqc with h2
    rw [← h2]
    rcases List.mem_enum hq with ⟨hlt, heq⟩
    have hmem : q.2 ∈ prelim := by
      rw [heq]
      exact List.getElem_mem hlt
    exact hpre q.2 hmem

theorem rerankPoolOf_sub (cfg : Cfg) (scored : List Candidate) :
    ∀ c ∈ rerankPoolOf cfg scored, c ∈ scored := by
  intro c hc
  unfold rerankPoolOf at hc
  have := List.mem_of_mem_take hc
  exact (mem_insSortBy _ _ _).mp this

theorem scoredOrFallback_le45 (cfg : Cfg) (style : StyleProfile) (pref : Preference)
    (persona : Persona) (context : Context) (u : String) (scored0 : List Candidate)
    (h0 : ∀ c ∈ scored0, BubblesLe45 c.bubbles) :
    ∀ c ∈ (scoredOrFallback cfg style pref persona context u scored0).1,
      BubblesLe45 c.bubbles := by
  intro c hc
  unfold scoredOrFallback at hc
  split at hc
  · rcases List.mem_cons.mp hc with hc | hc
    · rw [hc]
      with_reducible exact fallbackLines_le45 cfg u persona
    · cases hc
  · exact h0 c hc

theorem repairPhase_le45 (cfg : Cfg) (style : StyleProfile) (pref : Preference)
    (persona : Persona) (context : Context) (u : String) (roc : Option CallOk)
    (sel : Candidate) (fp : String) (hsel : BubblesLe45 sel.bubbles) :
    BubblesLe45 (repairPhase cfg style pref persona context u roc sel fp).1.bubbles := by
  simp only [repairPhase]
  split
  · split
    · cases hrc : repairCandidate cfg roc with
      | some rr =>
        dsimp only
        split
        · with_reducible exact repairCandidate_le45 cfg roc rr hrc
        · with_reducible exact hsel
      | none => with_reducible exact hsel
    · with_reducible exact hsel
  · with_reducible exact hsel

theorem fallbackPhase_le45 (cfg : Cfg) (style : StyleProfile) (pref : Preference)
    (persona : Persona) (context : Context) (u : String) (sel : Candidate)
    (fp fr : String) (hsel : BubblesLe45 sel.bubbles) :
    BubblesLe45 (fallbackPhase cfg style pref persona context u sel fp fr).1.bubbles := by
  simp only [fallbackPhase]
  split
  · split
    · with_reducible exact fallbackLines_le45 cfg u persona
    · with_reducible exact hsel
  · with_reducible exact hsel

theorem selectedCandidate_le45 (pool : List Candidate) (idx : ℕ)
    (hpool : ∀ c ∈ pool, BubblesLe45 c.bubbles) :
    BubblesLe45 (pool.getD idx defaultCandidate).bubbles := by
  rw [List.getD_eq_getD_get?]
  cases hg : pool.get? idx with
  | none =>
    intro b hb
    cases hb
  | some c => exact hpool c (List.get?_mem hg)

theorem generate_bubbles_le45 (cfg : Cfg) (style : StyleProfile) (pref : Preference)
    (persona : Persona) (context : Context) (u : String) (oc : GenOutcomes)
    (r : GenerationResult) (h : generate cfg style pref persona context u oc = .ok r) :
    BubblesLe45 r.bubbles := by
  unfold generate at h
  cases hpl : oc.planner with
  | none =>
    rw [hpl] at h
    exact Except.noConfusion h
  | some plannerOut =>
    rw [hpl] at h
    dsimp only at h
    cases hgen : oc.generator with
    | none =>
      rw [hgen] at h
      exact Except.noConfusion h
    | some generatorOut =>
      rw [hgen] at h
      dsimp only at h
      cases hpre : prelimOf cfg (rawCandidatesOf generatorOut) with
      | error e =>
        rw [hpre] at h
        exact Except.noConfusion h
      | ok prelim =>
        rw [hpre] at h
        dsimp only at h
        injection h with h2
        have hscored := scoredCandidatesOf_le45 cfg style pref persona context u
          oc.embedRel prelim (prelimOf_le45 cfg _ prelim hpre)
        have hfb0 := scoredOrFallback_le45 cfg style pref persona context u _ hscored
        have hpool : ∀ c ∈ rerankPoolOf cfg (scoredOrFallback cfg style pref persona
            context u (scoredCandidatesOf cfg style pref persona context u
              oc.embedRel prelim)).1, BubblesLe45 c.bubbles :=
          fun c hc => hfb0 c (rerankPoolOf_sub cfg _ c hc)
        have hsel0 := selectedCandidate_le45 _
          (if 1 < (rerankPoolOf cfg (scoredOrFallback cfg style pref persona context u
            (scoredCandidatesOf cfg style pref persona context u oc.embedRel prelim)).1).length
           then criticPickIdx (rerankPoolOf cfg (scoredOrFallback cfg style pref persona
             context u (scoredCandidatesOf cfg style pref persona context u
               oc.embedRel prelim)).1) oc.critic else 0) hpool
        rw [← h2]
        dsimp only
        with_reducible apply fallbackPhase_le45
        with_reducible apply repairPhase_le45
        with_reducible exact hsel0

/-! ## C10 -/

theorem hardFilter_not_too_long (cfg : Cfg) (bubbles : List String)
    (h : ∀ b ∈ bubbles, b.length ≤ 45) : (hardFilter cfg bubbles).2 ≠ "too_long" := by
  unfold hardFilter
  split
  · decide
  · split
    · decide
    · split
      · decide
      · split
        · decide
        · split
          · decide
          · split
            · rename_i h50
              obtain ⟨b, hb, hlt⟩ := List.any_eq_true.mp h50
              rw [decide_eq_true_iff] at hlt
              exact absurd (h b hb) (by omega)
            · split
              · decide
              · decide

/-- C10: the length invariant of the final bubbles, corrected: the truncation
of `_sanitize_bubble` is not a plain 44-character prefix — trailing
punctuation of the prefix is stripped before the ellipsis is appended — but
every sanitized bubble still fits in 45 characters, every bubble list a
successful `generate` returns obeys that bound, and the hard filter's
over-50-characters branch can never fire on such a list. -/
theorem C10_bubble_length_invariant (cfg : Cfg) (style : StyleProfile) (pref : Preference)
    (persona : Persona) (context : Context) (u : String) :
    (∀ s, (sanitizeBubbleStr cfg s).length ≤ 45) ∧
    (∀ s, 44 < (sanitizePre cfg s).length →
      sanitizeBubbleStr cfg s =
        String.mk (rstripChars ((sanitizePre cfg s).data.take 44) punctStrip44) ++ "…") ∧
    (∀ oc r, generate cfg style pref persona context u oc = .ok r →
      ∀ b ∈ r.bubbles, b.length ≤ 45) ∧
    (∀ bubbles, (∀ b ∈ bubbles, b.length ≤ 45) →
      (hardFilter cfg bubbles).2 ≠ "too_long") := by
  refine ⟨fun s => sanitizeBubbleStr_length_le cfg s, fun s hs => ?_,
    fun oc r h => generate_bubbles_le45 cfg style pref persona context u oc r h,
    fun bubbles h => hardFilter_not_too_long cfg bubbles h⟩
  simp only [sanitizeBubbleStr]
  rw [if_pos hs]

/-- C10 counterexample: on a 45-character input ending in `，b` the sanitizer
keeps only 43 characters before the ellipsis (the comma of the 44-prefix is
stripped), so the output is not the 44-character prefix plus an ellipsis. -/
theorem C10_truncation_counterexample :
    44 < (sanitizePre cfgT (String.mk (List.replicate 43 'b') ++ "，b")).length ∧
    sanitizeBubbleStr cfgT (String.mk (List.replicate 43 'b') ++ "，b") ≠
      String.mk ((sanitizePre cfgT (String.mk (List.replicate 43 'b') ++ "，b")).data.take 44)
        ++ "…" := by
  constructor
  · decide
  · decide

/-- C1 (corrected): `generate` succeeds exactly when the planner call, the
generator call and the prelim pass succeed — a `GeminiClient.generate` failure
at the PLAN or GENERATE stage propagates to the caller (those two calls are
not wrapped), while the embedding, critic and repair oracles can never affect
whether `generate` returns a result. -/
theorem C1_llm_failure_propagates (cfg : Cfg) (style : StyleProfile) (pref : Preference)
    (persona : Persona) (context : Context) (u : String) (oc : GenOutcomes) :
    (isOkE (generate cfg style pref persona context u oc) =
      (match oc.planner, oc.generator with
       | some _, some g => isOkE (prelimOf cfg (rawCandidatesOf g))
       | _, _ => false)) ∧
    (∀ oc' : GenOutcomes, oc'.planner = oc.planner → oc'.generator = oc.generator →
      isOkE (generate cfg style pref persona context u oc') =
        isOkE (generate cfg style pref persona context u oc)) := by
  have key : ∀ ocx : GenOutcomes,
      isOkE (generate cfg style pref persona context u ocx) =
        (match ocx.planner, ocx.generator with
         | some _, some g => isOkE (prelimOf cfg (rawCandidatesOf g))
         | _, _ => false) := by
    intro ocx
    unfold generate
    cases hp : ocx.planner with
    | none => rfl
    | some p =>
      dsimp only
      cases hg : ocx.generator with
      | none => rfl
      | some g =>
        dsimp only
        cases hpre : prelimOf cfg (rawCandidatesOf g) with
        | error e => rfl
        | ok l => rfl
  refine ⟨key oc, fun oc' h1 h2 => ?_⟩
  rw [key oc', key oc, h1, h2]

/-- C1 counterexample: with every Gemini model failing at the PLAN stage, the
top-level `generate` raises to its caller instead of returning a fallback. -/
theorem C1_planner_failure_counterexample :
    generate cfgT styleT prefT personaT ctxT "今天吃什么" ocPlannerFailT =
      .error "all Gemini model attempts failed" := rfl

/-- Witness for C1 at oracles whose planner and generator succeed: success of
`generate` reduces to success of the prelim pass over the generator payload. -/
theorem C1_witness :
    isOkE (generate cfgT styleT prefT personaT ctxT "今天吃什么" ocT) =
      isOkE (prelimOf cfgT (rawCandidatesOf ⟨"y", some (JVal.obj []), "m2"⟩)) :=
  (C1_llm_failure_propagates cfgT styleT prefT personaT ctxT "今天吃什么" ocT).1

/-! ## C5 -/

/-- C5: a dense snapshot whose metadata records a different `text_source` than
the active configuration is discarded — `ensure_dense_loaded` clears the
in-process state and reports `false` — and `search` returns the empty list
when the snapshot is unavailable, when the query is blank, and when
`top_k ≤ 0`. -/
theorem C5_stale_snapshot_guard (cfg : SemCfg) (db : ℤ → Option String) (fs : DenseFiles)
    (st : IdxState) (query : String) (topK : ℤ) (personaKey : String)
    (embedO : String → List ℚ) :
    (∀ src, cfg.useDense = true → fs.present = true →
      st.loadedSignature ≠ some fs.sig → fs.vecDim = cfg.dim →
      fs.meta = .parsed src → src ≠ cfg.textSource →
      ensureDenseLoaded cfg db fs st false = .ok (false, clearedIdxState)) ∧
    (∀ st2, trimPy query ≠ "" → ¬ topK ≤ 0 →
      ensureDenseLoaded cfg db fs st false = .ok (false, st2) →
      searchDense cfg db fs st query topK personaKey embedO = .ok ([], st2)) ∧
    (trimPy query = "" → searchDense cfg db fs st query topK personaKey embedO = .ok ([], st)) ∧
    (topK ≤ 0 → searchDense cfg db fs st query topK personaKey embedO = .ok ([], st)) := by
  refine ⟨fun src hu hp hsig hdim hmeta hsrc => ?_, fun st2 hq hk hens => ?_,
    fun hq => ?_, fun hk => ?_⟩
  · unfold ensureDenseLoaded
    rw [hu, hp, hmeta]
    simp only [Bool.not_true, Bool.false_eq_true, if_false]
    rw [if_neg (by simp [hsig])]
    rw [if_neg (by omega)]
    dsimp only
    rw [if_pos (by simp [bne_iff_ne, hsrc])]
  · unfold searchDense
    rw [if_neg (by simp [hq, hk])]
    rw [hens]
  · unfold searchDense
    rw [if_pos (by simp [hq])]
  · unfold searchDense
    rw [if_pos (by simp [hk])]

/-- Witness for C5: the fixture snapshot recorded for `anchor_text` against a
configuration requesting `segment_text` is discarded with cleared state. -/
theorem C5_witness :
    ensureDenseLoaded semCfgT dbT fsMismatchT clearedIdxState false =
      .ok (false, clearedIdxState) :=
  (C5_stale_snapshot_guard semCfgT dbT fsMismatchT clearedIdxState "hi" 5 "alice" embedT).1
    "anchor_text" rfl (by decide) (by decide) rfl rfl (by decide)

/-! ## C2 -/

theorem mem_buildPartition_lookup (ids : List ℤ) (db : ℤ → Option String) (dxa k : String)
    (positions : List ℕ) (h : lookupPart (buildPartition ids db dxa) k = some positions) :
    ∀ pos ∈ positions, pos < ids.length ∧ personaOfD db dxa (ids.getD pos 0) = k := by
  intro pos hpos
  unfold lookupPart at h
  obtain ⟨pair, hfind, hsnd⟩ := Option.map_eq_some'.mp h
  have hk : pair.1 = k := by
    have := List.find?_some hfind
    rwa [decide_eq_true_iff] at this
  have hmem : pair ∈ buildPartition ids db dxa := List.mem_of_find?_eq_some hfind
  unfold buildPartition at hmem
  obtain ⟨k', _, hpair⟩ := List.mem_map.mp hmem
  have hsnd2 : pair.2 = insSortBy (fun a b => decide (a ≤ b))
      (((idToPosEntries ids).filter
        (fun e => decide (personaOfD db dxa e.1 = k'))).map (fun e => e.2)) := by
    rw [← hpair]
  have hkk : k' = k := by
    rw [← hk, ← hpair]
  rw [hsnd2, hkk] at hsnd
  rw [← hsnd] at hpos
  rw [mem_insSortBy] at hpos
  obtain ⟨e, he, hpe⟩ := List.mem_map.mp hpos
  rw [List.mem_filter] at he
  obtain ⟨hee, hpk⟩ := he
  rw [decide_eq_true_iff] at hpk
  unfold idToPosEntries at hee
  obtain ⟨p, hp, hpe2⟩ := List.mem_map.mp hee
  have hget : ids[p.1]? = some p.2 := List.mem_enum_iff_getElem?.mp hp
  have hlt : p.1 < ids.length := by
    by_contra hge
    rw [List.getElem?_eq_none (le_of_not_lt hge)] at hget
    exact Option.noConfusion hget
  have he1 : e.1 = p.2 := by rw [← hpe2]
  have he2 : e.2 = p.1 := by rw [← hpe2]
  constructor
  · rw [← hpe, he2]
    exact hlt
  · rw [← hpe, he2, List.getD_eq_getD_get?, List.get?_eq_getElem?, hget]
    rw [he1] at hpk
    exact hpk

theorem ensureDenseLoaded_wf (cfg : SemCfg) (db : ℤ → Option String) (fs : DenseFiles)
    (st : IdxState) (force : Bool) (hwf : st.PartitionWF cfg db) (ok : Bool) (st2 : IdxState)
    (h : ensureDenseLoaded cfg db fs st force = .ok (ok, st2)) :
    st2.PartitionWF cfg db := by
  unfold ensureDenseLoaded at h
  dsimp only at h
  repeat' split at h
  any_goals exact Except.noConfusion h
  all_goals rw [Except.ok.injEq, Prod.mk.injEq] at h
  all_goals rw [← h.2]
  any_goals exact hwf
  all_goals intro ids hids
  · exact Option.noConfusion hids
  · rw [Option.some_inj] at hids
    rw [← hids]

/-- C2: with a non-blank, already-trimmed persona key, every segment id the
dense search returns is owned by that persona (ownership =
`_segment_persona_map.get(sid, dxa)`, the store's persona column with the DXA
default): search never returns a segment of a different persona.  The state
hypothesis says the cached partition, if any, is the one `ensure_dense_loaded`
builds — true of the fresh state and preserved by every load. -/
theorem C2_search_persona_scoped (cfg : SemCfg) (db : ℤ → Option String) (fs : DenseFiles)
    (st : IdxState) (query : String) (topK : ℤ) (personaKey : String)
    (embedO : String → List ℚ) (res : List (ℤ × ℚ)) (st2 : IdxState)
    (hwf : st.PartitionWF cfg db) (hpk : personaKey ≠ "")
    (htrim : trimPy personaKey = personaKey)
    (h : searchDense cfg db fs st query topK personaKey embedO = .ok (res, st2)) :
    ∀ p ∈ res, personaOfD db cfg.dxaKey p.1 = personaKey := by
  intro p hp
  unfold searchDense at h
  split at h
  · rw [Except.ok.injEq, Prod.mk.injEq] at h
    rw [← h.1] at hp
    cases hp
  · cases hens : ensureDenseLoaded cfg db fs st false with
    | error e =>
      rw [hens] at h
      exact Except.noConfusion h
    | ok pr =>
      rw [hens] at h
      obtain ⟨ok, st2'⟩ := pr
      cases ok with
      | false =>
        dsimp only at h
        rw [Except.ok.injEq, Prod.mk.injEq] at h
        rw [← h.1] at hp
        cases hp
      | true =>
        dsimp only at h
        have hwf2 : st2'.PartitionWF cfg db :=
          ensureDenseLoaded_wf cfg db fs st false hwf true st2' hens
        cases hvecs : st2'.vecsArr with
        | none =>
          rw [hvecs] at h
          rw [Except.ok.injEq, Prod.mk.injEq] at h
          rw [← h.1] at hp
          cases hp
        | some vecs =>
          rw [hvecs] at h
          cases hids : st2'.idsArr with
          | none =>
            rw [hids] at h
            rw [Except.ok.injEq, Prod.mk.injEq] at h
            rw [← h.1] at hp
            cases hp
          | some ids =>
            rw [hids] at h
            dsimp only at h
            rw [htrim] at h
            rw [if_neg hpk] at h
            have hpart : st2'.personaToPositions = buildPartition ids db cfg.dxaKey :=
              hwf2 ids hids
            cases hlook : lookupPart st2'.personaToPositions personaKey with
            | none =>
              rw [hlook] at h
              dsimp only at h
              rw [Except.ok.injEq, Prod.mk.injEq] at h
              rw [← h.1] at hp
              cases hp
            | some positions =>
              rw [hlook] at h
              dsimp only at h
              rw [hpart] at hlook
              have hown := mem_buildPartition_lookup ids db cfg.dxaKey personaKey
                positions hlook
              split at h
              · rw [Except.ok.injEq, Prod.mk.injEq] at h
                rw [← h.1] at hp
                cases hp
              · split at h
                · rw [Except.ok.injEq, Prod.mk.injEq] at h
                  rw [← h.1] at hp
                  cases hp
                · rw [Except.ok.injEq, Prod.mk.injEq] at h
                  rw [← h.1] at hp
                  obtain ⟨pos, hpos, hpp⟩ := List.mem_map.mp hp
                  have hpos2 : pos ∈ positions := by
                    have := List.mem_of_mem_take hpos
                    rwa [mem_insSortBy] at this
                  rw [← hpp]
                  exact (hown pos hpos2).2

/-- Witness for C2: on the fixture store the search for persona `alice`
returns only segment 1, and segment 1 is owned by `alice`. -/
theorem C2_witness : personaOfD dbT semCfgT.dxaKey ((1 : ℤ), (1 : ℚ)).1 = "alice" :=
  C2_search_persona_scoped semCfgT dbT fsT clearedIdxState "hi" 5 "alice" embedT
    [((1 : ℤ), (1 : ℚ))] loadedStT
    (fun ids hids => Option.noConfusion hids) (by decide) (by decide)
    (by with_unfolding_all rfl)
    ((1 : ℤ), (1 : ℚ)) (List.mem_singleton.mpr rfl)

/-! ## C3 -/

/-- C3 (corrected): the fused scores of `retrieve_similar_segments`.  The
lexical component is `1` for every rank at or below `0` — not `1/(1+rank)` as
claimed (SQLite bm25 ranks are negative, so this is the common case) — the
recency component is the linear position of the anchor timestamp inside the
batch's min–max span (`0` when the timestamp is missing or `0`), and the
total is `0.72·semantic + 0.18·lexical + 0.10·recency`. -/
theorem C3_fusion_formula (merged : List MergedCand) :
    ∀ r ∈ fuseRanked merged,
      (r.lexicalScore = if r.lexicalRank ≤ 0 then 1 else 1 / (1 + r.lexicalRank)) ∧
      (r.recencyScore = if r.anchorTs.getD 0 = 0 then 0
        else ((r.anchorTs.getD 0 - listMinD (tsValuesOf merged) : ℤ) : ℚ) /
          ((max 1 (listMaxD (tsValuesOf merged) - listMinD (tsValuesOf merged)) : ℤ) : ℚ)) ∧
      r.retrievalScore =
        0.72 * r.semanticScore + 0.18 * r.lexicalScore + 0.10 * r.recencyScore := by
  intro r hr
  simp only [fuseRanked] at hr
  obtain ⟨item, _, heq⟩ := List.mem_map.mp hr
  rw [← heq]
  exact ⟨rfl, rfl, rfl⟩

/-- C3 counterexample: at the bm25-style rank `-0.5` the code's lexical score
is `1`, while the claimed formula `1/(1+rank)` gives `2`. -/
theorem C3_rank_counterexample :
    (fuseRanked mergedT).map (fun r => r.lexicalScore) = [1] ∧
    (1 / (1 + (-0.5 : ℚ)) = 2) ∧ (1 : ℚ) ≠ 2 := by
  refine ⟨by with_unfolding_all rfl, by norm_num, by norm_num⟩

/-- Witness for C3 at the fixture batch (one candidate, rank `-0.5`,
semantic `0.5`, timestamp `5`). -/
theorem C3_witness :
    ((⟨1, some 5, -0.5, 0.5, 1, 0, 0.54⟩ : RankedCand).lexicalScore =
      if (⟨1, some 5, -0.5, 0.5, 1, 0, 0.54⟩ : RankedCand).lexicalRank ≤ 0 then 1
      else 1 / (1 + (⟨1, some 5, -0.5, 0.5, 1, 0, 0.54⟩ : RankedCand).lexicalRank)) ∧
    ((⟨1, some 5, -0.5, 0.5, 1, 0, 0.54⟩ : RankedCand).recencyScore =
      if (⟨1, some 5, -0.5, 0.5, 1, 0, 0.54⟩ : RankedCand).anchorTs.getD 0 = 0 then 0
      else (((⟨1, some 5, -0.5, 0.5, 1, 0, 0.54⟩ : RankedCand).anchorTs.getD 0 -
          listMinD (tsValuesOf mergedT) : ℤ) : ℚ) /
        ((max 1 (listMaxD (tsValuesOf mergedT) - listMinD (tsValuesOf mergedT)) : ℤ) : ℚ)) ∧
    (⟨1, some 5, -0.5, 0.5, 1, 0, 0.54⟩ : RankedCand).retrievalScore =
      0.72 * (⟨1, some 5, -0.5, 0.5, 1, 0, 0.54⟩ : RankedCand).semanticScore +
      0.18 * (⟨1, some 5, -0.5, 0.5, 1, 0, 0.54⟩ : RankedCand).lexicalScore +
      0.10 * (⟨1, some 5, -0.5, 0.5, 1, 0, 0.54⟩ : RankedCand).recencyScore := by
  have hm : (⟨1, some 5, -0.5, 0.5, 1, 0, 0.54⟩ : RankedCand) ∈ fuseRanked mergedT := by
    have he : fuseRanked mergedT = [⟨1, some 5, -0.5, 0.5, 1, 0, 0.54⟩] := by
      with_unfolding_all rfl
    rw [he]
    exact List.mem_singleton.mpr rfl
  exact C3_fusion_formula mergedT _ hm

/-! ## C4 -/

theorem rankKeyLe_total (a b : RankedCand) :
    rankKeyLe a b = true ∨ rankKeyLe b a = true := by
  unfold rankKeyLe
  rcases le_total (rankKey a) (rankKey b) with h | h
  · exact Or.inl (decide_eq_true h)
  · exact Or.inr (decide_eq_true h)

theorem rankKeyLe_trans (a b c : RankedCand) (hab : rankKeyLe a b = true)
    (hbc : rankKeyLe b c = true) : rankKeyLe a c = true := by
  unfold rankKeyLe at hab hbc ⊢
  rw [decide_eq_true_iff] at hab hbc ⊢
  exact le_trans hab hbc

theorem rankKeyLe_desc (a b : RankedCand) (h : rankKeyLe a b = true) : DescTupleRel a b := by
  unfold rankKeyLe at h
  rw [decide_eq_true_iff] at h
  unfold rankKey at h
  rw [Prod.Lex.le_iff] at h
  unfold DescTupleRel
  rcases h with h | ⟨h1, h2⟩
  · exact Or.inl (neg_lt_neg_iff.mp h)
  · refine Or.inr ⟨neg_inj.mp h1, ?_⟩
    rw [Prod.Lex.le_iff] at h2
    rcases h2 with h2 | ⟨h3, h4⟩
    · exact Or.inl (neg_lt_neg_iff.mp h2)
    · refine Or.inr ⟨neg_inj.mp h3, ?_⟩
      rw [Prod.Lex.le_iff] at h4
      rcases h4 with h4 | ⟨h5, h6⟩
      · exact Or.inl h4
      · exact Or.inr ⟨h5, neg_le_neg_iff.mp h6⟩

/-- C4 (corrected): the merged candidates are ordered descending by
`(retrieval_score, semantic_score, -lexical_rank, segment_id)` — ties by
higher semantic score, then lower lexical rank, then higher segment id — and
the windows are built from the top `max(1, top_k_hits)` candidates of that
order (one candidate survives even when `top_k_hits ≤ 0`, not exactly
`top_k_hits`). -/
theorem C4_rank_order (merged : List MergedCand) (topKHits : ℤ) :
    List.Perm (rankedSort (fuseRanked merged)) (fuseRanked merged) ∧
    (rankedSort (fuseRanked merged)).Pairwise DescTupleRel ∧
    chosenCandidates merged topKHits =
      (rankedSort (fuseRanked merged)).take (max 1 topKHits).toNat := by
  refine ⟨insSortBy_perm _ _, ?_, rfl⟩
  exact List.Pairwise.imp (fun h => rankKeyLe_desc _ _ h)
    (insSortBy_sorted rankKeyLe (fun a b => rankKeyLe_total a b)
      (fun a b c => rankKeyLe_trans a b c) (fuseRanked merged))

/-- C4 counterexample: with `top_k_hits = 0` the code still keeps one
candidate (`max(1, top_k_hits)`), so the result is not the top-0 prefix. -/
theorem C4_topk_zero_counterexample :
    (chosenCandidates mergedT2 0).length = 1 ∧
    ((rankedSort (fuseRanked mergedT2)).take (Int.toNat 0)).length = 0 := by
  constructor
  · with_unfolding_all rfl
  · rfl

theorem queryLexical_eq (db : LexDb) (q pk : String) :
    queryLexical db q pk =
      dedupBest (if (lexHits12 db q pk).isEmpty then
        (db.recentRows pk).map (fun r => { r with rank := 20000 })
      else lexHits12 db q pk) := rfl

/-- `dedupStep` never changes an entry's segment id. -/
theorem dedupStep_map_id (row : LexRow) (cur : LexHit) :
    (if cur.segmentId = row.rid && decide (row.rank < cur.lexicalRank)
      then rowToHit row else cur).segmentId = cur.segmentId := by
  split
  · rename_i hc
    rw [Bool.and_eq_true] at hc
    rw [decide_eq_true_iff] at hc
    exact hc.1.symm
  · rfl

theorem dedupStep_pairwise (acc : List LexHit) (row : LexRow)
    (h : acc.Pairwise (fun a b => a.segmentId ≠ b.segmentId)) :
    (dedupStep acc row).Pairwise (fun a b => a.segmentId ≠ b.segmentId) := by
  unfold dedupStep
  split
  · refine List.pairwise_map.mpr (h.imp ?_)
    intro a b hab
    rw [dedupStep_map_id row a, dedupStep_map_id row b]
    exact hab
  · rename_i hany
    rw [List.pairwise_append]
    refine ⟨h, List.pairwise_singleton _ _, ?_⟩
    intro a ha b hb
    rw [List.mem_singleton] at hb
    rw [hb]
    intro hid
    apply hany
    rw [List.any_eq_true]
    exact ⟨a, ha, decide_eq_true hid⟩

/-- Every entry of `acc` survives `dedupStep` with the same id and a rank that
did not increase. -/
theorem dedupStep_lower (acc : List LexHit) (row : LexRow) (e : LexHit) (he : e ∈ acc) :
    ∃ f ∈ dedupStep acc row, f.segmentId = e.segmentId ∧ f.lexicalRank ≤ e.lexicalRank := by
  unfold dedupStep
  split
  · refine ⟨_, List.mem_map_of_mem _ he, dedupStep_map_id row e, ?_⟩
    split
    · rename_i hc
      rw [Bool.and_eq_true] at hc
      simp only [decide_eq_true_iff] at hc
      exact le_of_lt hc.2
    · exact le_refl _
  · exact ⟨e, List.mem_append_left _ he, rfl, le_refl _⟩

/-- After `dedupStep acc row` some entry carries `row`'s id with a rank at most
`row.rank`. -/
theorem dedupStep_covers (acc : List LexHit) (row : LexRow) :
    ∃ f ∈ dedupStep acc row, f.segmentId = row.rid ∧ f.lexicalRank ≤ row.rank := by
  unfold dedupStep
  split
  · rename_i hany
    obtain ⟨cur, hcur, hid⟩ := List.any_eq_true.mp hany
    rw [decide_eq_true_iff] at hid
    refine ⟨_, List.mem_map_of_mem _ hcur, ?_, ?_⟩
    · rw [dedupStep_map_id row cur]
      exact hid
    · split
      · rfl
      · rename_i hc
        rw [Bool.and_eq_true] at hc
        simp only [decide_eq_true_iff, not_and] at hc
        exact le_of_not_lt (hc hid)
  · refine ⟨rowToHit row, List.mem_append_right _ (List.mem_singleton.mpr rfl), rfl, le_refl _⟩

/-- Entries of two positions of an id-distinct list with equal id are equal. -/
theorem pairwise_id_unique (l : List LexHit)
    (hl : l.Pairwise (fun a b => a.segmentId ≠ b.segmentId)) :
    ∀ a ∈ l, ∀ b ∈ l, a.segmentId = b.segmentId → a = b := by
  induction l with
  | nil =>
    intro a ha
    cases ha
  | cons x xs ih =>
    rcases List.pairwise_cons.mp hl with ⟨hx, hxs⟩
    intro a ha b hb hab
    rcases List.mem_cons.mp ha with ha | ha <;> rcases List.mem_cons.mp hb with hb | hb
    · rw [ha, hb]
    · rw [ha] at hab
      exact absurd hab (hx b hb)
    · rw [hb] at hab
      exact absurd hab.symm (hx a ha)
    · exact ih hxs a ha b hb hab

/-- The dedup fold keeps, per id, a rank at most every rank seen for that id
(both in the accumulator and in the remaining rows). -/
theorem dedupBest_min_aux (rows : List LexRow) :
    ∀ acc : List LexHit, acc.Pairwise (fun a b => a.segmentId ≠ b.segmentId) →
    ∀ hit ∈ rows.foldl dedupStep acc,
      (∀ e ∈ acc, e.segmentId = hit.segmentId → hit.lexicalRank ≤ e.lexicalRank) ∧
      (∀ row ∈ rows, row.rid = hit.segmentId → hit.lexicalRank ≤ row.rank) := by
  induction rows with
  | nil =>
    intro acc hacc hit hhit
    refine ⟨fun e he hid => ?_, fun row hrow => ?_⟩
    · rw [pairwise_id_unique acc hacc e he hit hhit hid]
    · cases hrow
  | cons r rest ih =>
    intro acc hacc hit hhit
    have hacc' := dedupStep_pairwise acc r hacc
    have hres := ih (dedupStep acc r) hacc' hit hhit
    refine ⟨fun e he hid => ?_, fun row hrow hidr => ?_⟩
    · obtain ⟨f, hf, hfid, hfle⟩ := dedupStep_lower acc r e he
      exact le_trans (hres.1 f hf (hfid.trans hid)) hfle
    · rcases List.mem_cons.mp hrow with hrow | hrow
      · obtain ⟨f, hf, hfid, hfle⟩ := dedupStep_covers acc r
        rw [hrow] at hidr
        refine le_trans (hres.1 f hf (hfid.trans hidr)) ?_
        rw [hrow]
        exact hfle
      · exact hres.2 row hrow hidr

theorem dedupBest_pairwise_aux (rows : List LexRow) :
    ∀ acc : List LexHit, acc.Pairwise (fun a b => a.segmentId ≠ b.segmentId) →
    (rows.foldl dedupStep acc).Pairwise (fun a b => a.segmentId ≠ b.segmentId) := by
  induction rows with
  | nil => exact fun acc hacc => hacc
  | cons r rest ih => exact fun acc hacc => ih (dedupStep acc r) (dedupStep_pairwise acc r hacc)

theorem dedupBest_pairwise (rows : List LexRow) :
    (dedupBest rows).Pairwise (fun a b => a.segmentId ≠ b.segmentId) :=
  dedupBest_pairwise_aux rows [] List.Pairwise.nil

theorem dedupBest_min (rows : List LexRow) :
    ∀ hit ∈ dedupBest rows, ∀ row ∈ rows, row.rid = hit.segmentId →
      hit.lexicalRank ≤ row.rank :=
  fun hit hhit => (dedupBest_min_aux rows [] List.Pairwise.nil hit hhit).2

/-- C8 (corrected): in the lexical candidate step, the full-text query runs
when the FTS query string is non-empty and the n-gram substring query runs
whenever the query has CJK n-grams — even when the full-text query already
produced rows (not only when it yields nothing, as claimed); the
recent-segments fallback runs exactly when the combined FTS + n-gram rows are
empty; and the result is deduplicated by segment id keeping, per id, a rank
no larger than any rank seen for that id. -/
theorem C8_lexical_fallback_order (db : LexDb) (q pk : String) :
    ((lexHits12 db q pk).isEmpty = false →
      queryLexical db q pk = dedupBest (lexHits12 db q pk)) ∧
    ((lexHits12 db q pk).isEmpty = true →
      queryLexical db q pk =
        dedupBest ((db.recentRows pk).map (fun r => { r with rank := 20000 }))) ∧
    (toFtsQuery q ≠ "" → (cjkNgrams q).take 10 ≠ [] →
      lexHits12 db q pk =
        db.ftsRows (toFtsQuery q) pk ++
          (db.ngramRows ((cjkNgrams q).take 10) pk).map (fun r => { r with rank := 10000 })) ∧
    (queryLexical db q pk).Pairwise (fun a b => a.segmentId ≠ b.segmentId) ∧
    (∀ hit ∈ queryLexical db q pk,
      ∀ row ∈ (if (lexHits12 db q pk).isEmpty then
          (db.recentRows pk).map (fun r => { r with rank := 20000 })
        else lexHits12 db q pk),
        row.rid = hit.segmentId → hit.lexicalRank ≤ row.rank) := by
  refine ⟨fun h => ?_, fun h => ?_, fun h1 h2 => ?_, ?_, ?_⟩
  · rw [queryLexical_eq, h]
    rfl
  · rw [queryLexical_eq, h]
    rfl
  · simp only [lexHits12]
    rw [if_pos h1, if_pos h2]
  · rw [queryLexical_eq]
    exact dedupBest_pairwise _
  · rw [queryLexical_eq]
    exact dedupBest_min _

/-- C8 counterexample: on the fixture store both the FTS and the n-gram query
return rows, and the code keeps both (ids 1 and 2), while the
as-specified gating (n-grams only when FTS is empty) keeps only id 1. -/
theorem C8_ngram_not_gated_counterexample :
    ((queryLexical lexDbT "你好" "dxa").map (fun h => h.segmentId) = [1, 2]) ∧
    ((queryLexicalSpecC8 lexDbT "你好" "dxa").map (fun h => h.segmentId) = [1]) := by
  constructor
  · with_unfolding_all rfl
  · with_unfolding_all rfl

end CloneMe
